import Mathlib

/-!
Verification of the react-amap-binding repository.

The development shallowly embeds the two binding components of the repository,
AMap (src/AMap/index.js together with the instanceEventHandler utility) and
Marker, over a small model of JavaScript values.  Mutable object identity is
modelled by numeric ids; fresh ids are drawn from an explicit counter threaded
through the functions that correspond to `new` expressions in the source.
Calls made on foreign SDK instances are recorded as explicit `Call` values.
-/

/-- Model of a JavaScript value as seen by the binding code.  Composite values
(arrays, plain objects, foreign SDK class instances, functions) carry a numeric
id standing for their reference identity. -/
inductive JSValue where
  | undefined
  | jsnull
  | bool (b : Bool)
  | num (n : Int)
  | str (s : String)
  | arr (id : Nat) (elems : List JSValue)
  | obj (id : Nat) (fields : List (String × JSValue))
  | foreign (id : Nat) (cls : String) (args : List JSValue)
  | func (id : Nat)

/-- Model of JavaScript reference/primitive identity (Object.is): primitives
compare by value, composite values by reference id. -/
def jsIs : JSValue → JSValue → Bool
  | .undefined, .undefined => true
  | .jsnull, .jsnull => true
  | .bool a, .bool b => a = b
  | .num a, .num b => a = b
  | .str a, .str b => a = b
  | .arr i _, .arr j _ => i = j
  | .obj i _, .obj j _ => i = j
  | .foreign i _ _, .foreign j _ _ => i = j
  | .func i, .func j => i = j
  | _, _ => false

/-- Modelled from the spec: the isShallowEqual utility is imported from
utils/isShallowEqual, which is not among the sources; the spec describes the
update path as diffing "via shallow-equality checks".  Identical values
(primitive equality or the same reference) are shallow-equal, and plain arrays
and objects are additionally compared one level deep by identity of their
entries.  A freshly constructed foreign instance is therefore never
shallow-equal to any previously existing value. -/
def isShallowEqual (a b : JSValue) : Bool :=
  jsIs a b ||
    match a, b with
    | .arr _ ea, .arr _ eb =>
        ea.length == eb.length && (List.zipWith jsIs ea eb).all id
    | .obj _ fa, .obj _ fb =>
        fa.length == fb.length &&
          (List.zipWith (fun p q => p.1 == q.1 && jsIs p.2 q.2) fa fb).all id
    | _, _ => false

/-- Model of JavaScript truthiness, used for the `!nextProp` test in
AMap.updateMapWithAPI. -/
def truthy : JSValue → Bool
  | .undefined => false
  | .jsnull => false
  | .bool b => b
  | .num n => n ≠ 0
  | .str s => s ≠ ""
  | _ => true

/-- Modelled from the spec: the isNullVoid utility is imported from
utils/isNullVoid, which is not among the sources.  Per its uses in Marker
("Changing label to either null or undefined clears label") it recognises
exactly null and undefined. -/
def isNullVoid (v : JSValue) : Bool :=
  match v with
  | .undefined => true
  | .jsnull => true
  | _ => false

/-- A props or options object: an ordered association list of fields. -/
abbrev Props := List (String × JSValue)

/-- Reading a field of a props object; a missing field reads as undefined,
as in JavaScript. -/
def getProp : Props → String → JSValue
  | [], _ => .undefined
  | p :: rest, key => if p.1 == key then p.2 else getProp rest key

/-- Whether a props object has a field of the given name. -/
def containsKey (props : Props) (key : String) : Bool :=
  props.any (fun p => p.1 == key)

/-- Writing a field of a props object: replace the existing entry, or append
one, as a spread-with-override object literal does. -/
def setField : Props → String → JSValue → Props
  | [], key, v => [(key, v)]
  | p :: rest, key, v =>
    if p.1 == key then (key, v) :: rest else p :: setField rest key v

/-- Object rest destructuring: the remaining fields after extracting the named
keys. -/
def removeKeys (props : Props) (keys : List String) : Props :=
  props.filter (fun p => !(keys.contains p.1))

/-- Reading a field of a JSValue that may or may not be an object (a field read
on a non-object yields undefined in the fragment the binding exercises). -/
def getField (v : JSValue) (key : String) : JSValue :=
  match v with
  | .obj _ fields => getProp fields key
  | _ => .undefined

/-- ASCII lowercasing of a character, the fragment of
String.prototype.toLowerCase exercised by the event keys. -/
def lowerChar (c : Char) : Char :=
  if 'A' ≤ c ∧ c ≤ 'Z' then Char.ofNat (c.toNat + 32) else c

/-- ASCII lowercasing of a string (JavaScript toLowerCase on the ASCII event
keys used by the binding). -/
def toLowerAscii (s : String) : String :=
  String.mk (s.data.map lowerChar)

/-- A method call recorded against a foreign SDK instance. -/
structure Call where
  method : String
  args : List JSValue

/-- Whether a list of recorded calls contains a call of the given method. -/
def callsMethod (calls : List Call) (m : String) : Bool :=
  calls.any (fun c => c.method == m)

/-- One entry of the eventCBList kept by the components: the AMap event name
and the handler that was registered under it. -/
structure Listener where
  eventName : String
  handler : Nat

/-- Model of a foreign SDK instance: its currently registered event listeners,
and the log of method calls the binding has made on it.  The listener
behaviour of on and off is modelled from the spec, which describes the
interface as "a fixed event-name vocabulary" with handlers registered and
removed per event name. -/
structure Instance where
  listeners : List (String × Nat)
  callLog : List Call

/-- instance.on(eventName, handler): registers the handler under the event
name. -/
def Instance.on (inst : Instance) (eventName : String) (handler : Nat) : Instance :=
  { listeners := inst.listeners ++ [(eventName, handler)],
    callLog := inst.callLog ++ [⟨"on", [.str eventName, .func handler]⟩] }

/-- instance.off(eventName, handler): removes the listeners registered under
this event name with this handler. -/
def Instance.off (inst : Instance) (eventName : String) (handler : Nat) : Instance :=
  { listeners := inst.listeners.filter (fun p => !(p.1 == eventName && p.2 == handler)),
    callLog := inst.callLog ++ [⟨"off", [.str eventName, .func handler]⟩] }

/-- A plain method call on a foreign instance (setZoom, destroy, setMap, ...):
only the call log changes. -/
def Instance.invoke (inst : Instance) (method : String) (args : List JSValue) : Instance :=
  { listeners := inst.listeners, callLog := inst.callLog ++ [⟨method, args⟩] }

/-- Translated from utils/instanceEventHandler: for each key of the callback
object, derive the event name by dropping the first two characters of the key
and lowercasing the rest, register the handler on the instance under that
name, and push an {eventName, handler} record onto eventCBList.  Callbacks are
given as an ordered list of (key, handler id) pairs. -/
def bindInstanceEvent : Instance → List (String × Nat) → List Listener → Instance × List Listener
  | inst, [], eventCBList => (inst, eventCBList)
  | inst, p :: rest, eventCBList =>
    let eventName := toLowerAscii (p.1.drop 2)
    let handler := p.2
    bindInstanceEvent (inst.on eventName handler) rest (eventCBList ++ [⟨eventName, handler⟩])

/-- Translated from utils/instanceEventHandler: call instance.off for every
recorded listener. -/
def removeInstanceEvent : Instance → List Listener → Instance
  | inst, [] => inst
  | inst, l :: rest => removeInstanceEvent (inst.off l.eventName l.handler) rest

example : toLowerAscii ("onDblClick".drop 2) = "dblclick" := by decide
example : toLowerAscii ("onClick".drop 2) = "click" := rfl
example : isShallowEqual (.arr 1 [.num 2]) (.arr 3 [.num 2]) = true := rfl
example : isShallowEqual (.foreign 1 "Bounds" []) (.foreign 2 "Bounds" []) = false := rfl
example : getProp (setField [("a", .num 1)] "b" (.num 2)) "b" = .num 2 := rfl

/-!
The AMap component (src/AMap/index.js).  Whether window.AMap is defined is the
boolean amapLoaded; fresh object ids are drawn from an explicit counter.
-/

/-- The keys extracted by the destructuring at the top of AMap.parseMapOptions:
the loader-only props followed by the event-callback props.  Everything else
falls into the mapOptions rest object. -/
def AMap.MAP_EXTRACTED_KEYS : List String :=
  ["appKey", "children", "locaVersion", "protocol", "uiVersion", "version",
   "onComplete", "onClick", "onDblClick", "onMapMove", "onHotspotClick",
   "onHotspotOver", "onHotspotOut", "onMoveStart", "onMoveEnd", "onZoomChange",
   "onZoomStart", "onZoomEnd", "onMouseMove", "onMouseWheel", "onMouseOver",
   "onMouseOut", "onMouseUp", "onMouseDown", "onRightClick", "onDragStart",
   "onDragging", "onDragEnd", "onResize", "onTouchStart", "onTouchMove",
   "onTouchEnd"]

/-- Translated from AMap.parseMapOptions: filter out the event callbacks and
loader props, then override bounds (undefined before the library has loaded;
kept as is when already an AMap.Bounds instance; a fresh AMap.Bounds built from
the spread array elements when the prop is an array) and add boundsProp, which
memorises the original props.bounds for later comparison. -/
def AMap.parseMapOptions (props : Props) (amapLoaded : Bool) (ctr : Nat) : Props × Nat :=
  let mapOptions := removeKeys props AMap.MAP_EXTRACTED_KEYS
  let bounds := getProp mapOptions "bounds"
  let boundsPair : JSValue × Nat :=
    if !amapLoaded then (.undefined, ctr)
    else
      match bounds with
      | .foreign i "Bounds" bargs => (.foreign i "Bounds" bargs, ctr)
      | .arr _ elems => (.foreign ctr "Bounds" elems, ctr + 1)
      | v => (v, ctr)
  let boundsProp : JSValue := if !amapLoaded then .undefined else bounds
  (setField (setField mapOptions "bounds" boundsPair.1) "boundsProp" boundsProp, boundsPair.2)

/-- The fate of an external script tag appended to the document head. -/
inductive ScriptFate where
  | loaded
  | failed

/-- Translated from AMap.loadScript: the promise executor installs only a
scriptTag.onload handler that resolves the promise; there is no onerror
handler, no timeout and no retry, so the promise settles (resolves) exactly
when onload fires and has no rejection path.  The result is the settled state
of the promise: some () when resolved, none when forever pending. -/
def AMap.loadScript : ScriptFate → Option Unit
  | .loaded => some ()
  | .failed => none

/-- Translated from AMap.updateMapWithAPI: the fourth argument can be omitted
(none), in which case nextProp falls back to nextCompareProp.  The named API is
invoked with nextProp when the compared props are not shallow-equal, except
that setCenter is skipped when nextProp is falsy. -/
def AMap.updateMapWithAPI (apiName : String) (previousCompareProp nextCompareProp : JSValue)
    (nextPropArg : Option JSValue) : List Call :=
  let nextProp := nextPropArg.getD nextCompareProp
  if !(isShallowEqual previousCompareProp nextCompareProp) then
    if apiName == "setCenter" && !(truthy nextProp) then []
    else [⟨apiName, [nextProp]⟩]
  else []

/-- Translated from AMap.componentDidUpdate: all updates are held until the map
has been created (mapDefined); otherwise the next options are parsed and the
thirteen setters are diffed in source order, setBounds comparing boundsProp but
passing the freshly built bounds.  Returns the recorded calls, the new
this.mapOptions and the advanced id counter. -/
def AMap.componentDidUpdate (mapDefined : Bool) (mapOptions : Props) (props : Props)
    (amapLoaded : Bool) (ctr : Nat) : List Call × Props × Nat :=
  if !mapDefined then ([], mapOptions, ctr)
  else
    let parsed := AMap.parseMapOptions props amapLoaded ctr
    let nextMapOptions := parsed.1
    let calls :=
      AMap.updateMapWithAPI "setZoom" (getProp mapOptions "zoom")
        (getProp nextMapOptions "zoom") none ++
      AMap.updateMapWithAPI "setLabelzIndex" (getProp mapOptions "labelzIndex")
        (getProp nextMapOptions "labelzIndex") none ++
      AMap.updateMapWithAPI "setCenter" (getProp mapOptions "center")
        (getProp nextMapOptions "center") none ++
      AMap.updateMapWithAPI "setCity" (getProp mapOptions "city")
        (getProp nextMapOptions "city") none ++
      AMap.updateMapWithAPI "setBounds" (getProp mapOptions "boundsProp")
        (getProp nextMapOptions "boundsProp") (some (getProp nextMapOptions "bounds")) ++
      AMap.updateMapWithAPI "setLang" (getProp mapOptions "lang")
        (getProp nextMapOptions "lang") none ++
      AMap.updateMapWithAPI "setRotation" (getProp mapOptions "rotation")
        (getProp nextMapOptions "rotation") none ++
      AMap.updateMapWithAPI "setStatus" (getProp mapOptions "status")
        (getProp nextMapOptions "status") none ++
      AMap.updateMapWithAPI "setDefaultCursor" (getProp mapOptions "defaultCursor")
        (getProp nextMapOptions "defaultCursor") none ++
      AMap.updateMapWithAPI "setMapStyle" (getProp mapOptions "mapStyle")
        (getProp nextMapOptions "mapStyle") none ++
      AMap.updateMapWithAPI "setFeatures" (getProp mapOptions "features")
        (getProp nextMapOptions "features") none ++
      AMap.updateMapWithAPI "setDefaultLayer" (getProp mapOptions "defaultLayer")
        (getProp nextMapOptions "defaultLayer") none ++
      AMap.updateMapWithAPI "setPitch" (getProp mapOptions "pitch")
        (getProp nextMapOptions "pitch") none
    (calls, nextMapOptions, parsed.2)

/-- Translated from AMap.componentWillUnmount: when state.map is defined, the
recorded event listeners are removed and map.destroy() is called; when the
library has not loaded yet (state.map undefined) nothing at all is done. -/
def AMap.componentWillUnmount (stateMap : Option Instance) (eventListeners : List Listener) :
    Option Instance :=
  match stateMap with
  | none => none
  | some map => some ((removeInstanceEvent map eventListeners).invoke "destroy" [])

example :
    AMap.parseMapOptions [("zoom", .num 10), ("onClick", .func 1),
      ("bounds", .arr 7 [.arr 8 [.num 1, .num 2], .arr 9 [.num 3, .num 4]])] true 20 =
    ([("zoom", .num 10),
      ("bounds", .foreign 20 "Bounds" [.arr 8 [.num 1, .num 2], .arr 9 [.num 3, .num 4]]),
      ("boundsProp", .arr 7 [.arr 8 [.num 1, .num 2], .arr 9 [.num 3, .num 4]])], 21) := rfl

example :
    (AMap.componentDidUpdate true [("center", .arr 5 [.num 1, .num 2])] [] true 0).1 = [] := rfl

example :
    (AMap.componentDidUpdate true [("zoom", .num 1)] [("zoom", .num 2)] true 0).1 =
      [⟨"setZoom", [.num 2]⟩] := rfl

/-!
Lifecycle of the AMap component as an event-driven machine.  External
occurrences delivered to the component are LifeEvents; the effects the
component performs are Effects.  The step function is translated from
componentDidMount, initAMap, componentDidUpdate and componentWillUnmount.
-/

/-- External occurrences driving the AMap component lifecycle. -/
inductive LifeEvent where
  | mount
  | amapScriptLoaded
  | uiScriptLoaded
  | locaScriptLoaded
  | scriptError
  | propsUpdate (props : Props)
  | unmount

/-- Effects performed by the AMap component. -/
inductive Effect where
  | loadScriptAction (which : String)
  | initAMapUIAction
  | constructMap
  | bindEventsAction
  | renderChildren
  | setterCall (c : Call)
  | removeListenersAction
  | destroyAction
  | reportError

/-- Progress of initAMap through its awaits. -/
inductive Phase where
  | created
  | waitingAMap
  | waitingUILoca (uiDone locaDone : Bool)
  | ready
  | unmounted

/-- State of the AMap component machine: the initAMap progress, the memorised
this.mapOptions, and the fresh id counter. -/
structure MachineState where
  phase : Phase
  mapOptions : Props
  ctr : Nat

/-- The actions emitted when the map instance is finally constructed: the
AMap.Map constructor runs, bindEvents follows at once, and setState publishes
the map so that children render. -/
def AMap.constructSeq : List Effect :=
  [.constructMap, .bindEventsAction, .renderChildren]

/-- Translated from the AMap lifecycle methods.  componentDidMount calls
initAMap: when window.AMap is already defined the map is constructed at once,
otherwise the maps script is requested and awaited; once it loads, the AMapUI
and Loca scripts are requested in parallel and both are awaited (AMapUI runs
window.initAMapUI when its script loads); when the last of the two settles the
map is constructed, events are bound and children render.  A script load error
has no handler and does nothing.  componentDidUpdate returns immediately while
the map is undefined and otherwise diffs the parsed options.
componentWillUnmount removes listeners and destroys only when the map exists. -/
def AMap.step (amapPreloaded : Bool) (st : MachineState) (ev : LifeEvent) :
    MachineState × List Effect :=
  match st.phase, ev with
  | .created, .mount =>
    if amapPreloaded then ({ st with phase := .ready }, AMap.constructSeq)
    else ({ st with phase := .waitingAMap }, [.loadScriptAction "maps"])
  | .waitingAMap, .amapScriptLoaded =>
    ({ st with phase := .waitingUILoca false false },
      [.loadScriptAction "ui", .loadScriptAction "loca"])
  | .waitingUILoca _ locaDone, .uiScriptLoaded =>
    if locaDone then ({ st with phase := .ready }, .initAMapUIAction :: AMap.constructSeq)
    else ({ st with phase := .waitingUILoca true locaDone }, [.initAMapUIAction])
  | .waitingUILoca uiDone _, .locaScriptLoaded =>
    if uiDone then ({ st with phase := .ready }, AMap.constructSeq)
    else ({ st with phase := .waitingUILoca uiDone true }, [])
  | .ready, .propsUpdate props =>
    let upd := AMap.componentDidUpdate true st.mapOptions props true st.ctr
    ({ st with mapOptions := upd.2.1, ctr := upd.2.2 }, upd.1.map .setterCall)
  | _, .propsUpdate _ =>
    (st, [])
  | .ready, .unmount =>
    ({ st with phase := .unmounted }, [.removeListenersAction, .destroyAction])
  | _, .unmount =>
    ({ st with phase := .unmounted }, [])
  | _, _ => (st, [])

/-- Running the machine over a list of lifecycle events, concatenating the
emitted actions. -/
def AMap.run (amapPreloaded : Bool) (st : MachineState) : List LifeEvent → MachineState × List Effect
  | [] => (st, [])
  | ev :: rest =>
    let s1 := AMap.step amapPreloaded st ev
    let s2 := AMap.run amapPreloaded s1.1 rest
    (s2.1, s1.2 ++ s2.2)

/-- The machine state of a freshly constructed AMap component. -/
def AMap.initialState (mapOptions : Props) (ctr : Nat) : MachineState :=
  ⟨.created, mapOptions, ctr⟩

example :
    (AMap.run false (AMap.initialState [] 0)
      [.mount, .amapScriptLoaded, .locaScriptLoaded, .uiScriptLoaded]).2 =
    [.loadScriptAction "maps", .loadScriptAction "ui", .loadScriptAction "loca",
     .initAMapUIAction, .constructMap, .bindEventsAction, .renderChildren] := rfl

example :
    (AMap.run false (AMap.initialState [] 0) [.mount, .scriptError, .unmount]).2 =
    [.loadScriptAction "maps"] := rfl

/-!
The Marker component (src/Marker/index.js).
-/

mutual

/-- Deep copy of a value: every composite node receives a fresh id drawn from
the counter, primitives are unchanged. -/
def freshenIds : JSValue → Nat → JSValue × Nat
  | .arr _ elems, c =>
    let es := freshenList elems (c + 1)
    (.arr c es.1, es.2)
  | .obj _ fields, c =>
    let fs := freshenFields fields (c + 1)
    (.obj c fs.1, fs.2)
  | .foreign _ cls fargs, c =>
    let as2 := freshenList fargs (c + 1)
    (.foreign c cls as2.1, as2.2)
  | v, c => (v, c)

/-- Deep copy of a list of values. -/
def freshenList : List JSValue → Nat → List JSValue × Nat
  | [], c => ([], c)
  | v :: rest, c =>
    let v2 := freshenIds v c
    let r2 := freshenList rest v2.2
    (v2.1 :: r2.1, r2.2)

/-- Deep copy of the fields of an object. -/
def freshenFields : List (String × JSValue) → Nat → List (String × JSValue) × Nat
  | [], c => ([], c)
  | (k, v) :: rest, c =>
    let v2 := freshenIds v c
    let r2 := freshenFields rest v2.2
    ((k, v2.1) :: r2.1, r2.2)

end

mutual

/-- All ids of mutable structures (arrays, objects, foreign instances)
occurring in a value; aliasing of these is what makes SDK-side mutation
observable through props. -/
def idsOf : JSValue → List Nat
  | .arr i elems => i :: idsOfList elems
  | .obj i fields => i :: idsOfFields fields
  | .foreign i _ fargs => i :: idsOfList fargs
  | _ => []

/-- All reference ids occurring in a list of values. -/
def idsOfList : List JSValue → List Nat
  | [] => []
  | v :: rest => idsOf v ++ idsOfList rest

/-- All reference ids occurring in the fields of an object. -/
def idsOfFields : List (String × JSValue) → List Nat
  | [] => []
  | (_, v) :: rest => idsOf v ++ idsOfFields rest

end

/-- Translated from Marker: the fields that need to be deep copied before being
handed to the AMap library, which mutates the options it receives. -/
def Marker.NEED_DEEP_COPY_FIELDS : List String :=
  ["position"]

/-- Modelled from the spec: the cloneDeep utility is imported from
utils/cloneDeep, which is not among the sources.  Per the comment at
NEED_DEEP_COPY_FIELDS ("Deep copy those options before passing to AMap so that
props won't be mutated"), it copies the options object, deep-copying the values
of the listed fields (their copies receive fresh reference ids) and keeping
every other field as it is. -/
def cloneDeep (options : Props) (fields : List String) (ctr : Nat) : Props × Nat :=
  match options with
  | [] => ([], ctr)
  | (k, v) :: rest =>
    if fields.contains k then
      let v2 := freshenIds v ctr
      let r2 := cloneDeep rest fields v2.2
      ((k, v2.1) :: r2.1, r2.2)
    else
      let r2 := cloneDeep rest fields ctr
      ((k, v) :: r2.1, r2.2)

/-- The event-callback keys extracted by the destructuring at the top of
Marker.parseMarkerOptions; the rest object markerOptions keeps everything
else. -/
def Marker.MARKER_EVENT_KEYS : List String :=
  ["onComplete", "onClick", "onDblClick", "onRightClick", "onMouseMove",
   "onMouseOver", "onMouseOut", "onMouseDown", "onMouseUp", "onDragStart",
   "onDragging", "onDragEnd", "onMoving", "onMoveEnd", "onMoveAlong",
   "onTouchStart", "onTouchMove", "onTouchEnd"]

/-- Translated from the icon immediately invoked expression of
Marker.parseMarkerOptions: null or undefined clears the icon; an AMap.Icon
instance passes through; otherwise an AMap.Icon is constructed from the icon
options, with imageOffset normalised to an AMap.Pixel.  Arguments of the
constructed Icon record image, imageOffset, imageSize and size in order. -/
def Marker.parseIcon (icon : JSValue) (ctr : Nat) : JSValue × Nat :=
  if isNullVoid icon then (.jsnull, ctr)
  else
    match icon with
    | .foreign i "Icon" iargs => (.foreign i "Icon" iargs, ctr)
    | _ =>
      let imageOffsetPair : JSValue × Nat :=
        match getField icon "imageOffset" with
        | .foreign i "Pixel" pargs => (.foreign i "Pixel" pargs, ctr)
        | .arr _ elems => (.foreign ctr "Pixel" elems, ctr + 1)
        | _ => (.foreign ctr "Pixel" [.num 0, .num 0], ctr + 1)
      (.foreign imageOffsetPair.2 "Icon"
        [getField icon "image", imageOffsetPair.1,
         getField icon "imageSize", getField icon "size"],
       imageOffsetPair.2 + 1)

/-- Translated from the label immediately invoked expression of
Marker.parseMarkerOptions: null clears the label (undefined was already
defaulted to an empty object literal by the destructuring); otherwise the
label object is spread into a fresh object whose offset is normalised to an
AMap.Pixel. -/
def Marker.parseLabel (label : JSValue) (ctr : Nat) : JSValue × Nat :=
  if isNullVoid label then (.jsnull, ctr)
  else
    let offsetPair : JSValue × Nat :=
      match getField label "offset" with
      | .foreign i "Pixel" pargs => (.foreign i "Pixel" pargs, ctr)
      | .arr _ elems => (.foreign ctr "Pixel" elems, ctr + 1)
      | _ => (.foreign ctr "Pixel" [.num 0, .num 0], ctr + 1)
    let fields :=
      match label with
      | .obj _ fs => fs
      | _ => []
    (.obj offsetPair.2 (setField fields "offset" offsetPair.1), offsetPair.2 + 1)

/-- Translated from the offset immediately invoked expression of
Marker.parseMarkerOptions: an AMap.Pixel instance passes through, an array is
spread into a fresh AMap.Pixel, anything else falls back to the default
AMap.Pixel(-10, -34). -/
def Marker.parseOffset (offset : JSValue) (ctr : Nat) : JSValue × Nat :=
  match offset with
  | .foreign i "Pixel" pargs => (.foreign i "Pixel" pargs, ctr)
  | .arr _ elems => (.foreign ctr "Pixel" elems, ctr + 1)
  | _ => (.foreign ctr "Pixel" [.num (-10), .num (-34)], ctr + 1)

/-- Translated from Marker.parseMarkerOptions: the named event callbacks are
extracted, and of the remaining marker options icon, label and offset are
reshaped into SDK value objects; label defaults to an empty object literal
when the prop is undefined. -/
def Marker.parseMarkerOptions (props : Props) (ctr : Nat) : Props × Nat :=
  let markerOptions := removeKeys props Marker.MARKER_EVENT_KEYS
  let icon := getProp markerOptions "icon"
  let labelPair : JSValue × Nat :=
    match getProp markerOptions "label" with
    | .undefined => (.obj ctr [], ctr + 1)
    | v => (v, ctr)
  let offset := getProp markerOptions "offset"
  let iconPair := Marker.parseIcon icon labelPair.2
  let labelVal := Marker.parseLabel labelPair.1 iconPair.2
  let offsetPair := Marker.parseOffset offset labelVal.2
  (setField (setField (setField markerOptions "icon" iconPair.1) "label" labelVal.1)
      "offset" offsetPair.1,
   offsetPair.2)

/-- Translated from Marker.toggleVisible: when the compared values differ,
marker.show() runs if the next value is true and marker.hide() runs if it is
false. -/
def Marker.toggleVisible (previousProp nextProp : JSValue) : List Call :=
  if !(isShallowEqual previousProp nextProp) then
    (if jsIs nextProp (.bool true) then [⟨"show", []⟩] else []) ++
      (if jsIs nextProp (.bool false) then [⟨"hide", []⟩] else [])
  else []

/-- Translated from Marker.updateMarkerWithAPI: the named API is invoked with
the deep-copied newProp exactly when the compared previous and next props are
not shallow-equal. -/
def Marker.updateMarkerWithAPI (apiName : String) (previousProp nextProp newProp : JSValue) :
    List Call :=
  if !(isShallowEqual previousProp nextProp) then [⟨apiName, [newProp]⟩]
  else []

/-- Translated from Marker.shouldComponentUpdate: parse the next options, deep
copy the fields the SDK mutates, toggle visibility, diff the sixteen setters
in source order passing the deep-copied values, memorise the (uncopied) next
options as this.markerOptions, and return false.  The result is the returned
boolean, the recorded calls, the new this.markerOptions and the advanced id
counter. -/
def Marker.shouldComponentUpdate (markerOptions : Props) (nextProps : Props) (ctr : Nat) :
    Bool × List Call × Props × Nat :=
  let parsed := Marker.parseMarkerOptions nextProps ctr
  let nextMarkerOptions := parsed.1
  let cloned := cloneDeep nextMarkerOptions Marker.NEED_DEEP_COPY_FIELDS parsed.2
  let newMarkerOptions := cloned.1
  let calls :=
    Marker.toggleVisible (getProp markerOptions "visible") (getProp nextMarkerOptions "visible") ++
    Marker.updateMarkerWithAPI "setAnchor" (getProp markerOptions "anchor")
      (getProp nextMarkerOptions "anchor") (getProp newMarkerOptions "anchor") ++
    Marker.updateMarkerWithAPI "setOffset" (getProp markerOptions "offset")
      (getProp nextMarkerOptions "offset") (getProp newMarkerOptions "offset") ++
    Marker.updateMarkerWithAPI "setAnimation" (getProp markerOptions "animation")
      (getProp nextMarkerOptions "animation") (getProp newMarkerOptions "animation") ++
    Marker.updateMarkerWithAPI "setClickable" (getProp markerOptions "clickable")
      (getProp nextMarkerOptions "clickable") (getProp newMarkerOptions "clickable") ++
    Marker.updateMarkerWithAPI "setPosition" (getProp markerOptions "position")
      (getProp nextMarkerOptions "position") (getProp newMarkerOptions "position") ++
    Marker.updateMarkerWithAPI "setAngle" (getProp markerOptions "angle")
      (getProp nextMarkerOptions "angle") (getProp newMarkerOptions "angle") ++
    Marker.updateMarkerWithAPI "setLabel" (getProp markerOptions "label")
      (getProp nextMarkerOptions "label") (getProp newMarkerOptions "label") ++
    Marker.updateMarkerWithAPI "setzIndex" (getProp markerOptions "zIndex")
      (getProp nextMarkerOptions "zIndex") (getProp newMarkerOptions "zIndex") ++
    Marker.updateMarkerWithAPI "setIcon" (getProp markerOptions "icon")
      (getProp nextMarkerOptions "icon") (getProp newMarkerOptions "icon") ++
    Marker.updateMarkerWithAPI "setDraggable" (getProp markerOptions "draggable")
      (getProp nextMarkerOptions "draggable") (getProp newMarkerOptions "draggable") ++
    Marker.updateMarkerWithAPI "setCursor" (getProp markerOptions "cursor")
      (getProp nextMarkerOptions "cursor") (getProp newMarkerOptions "cursor") ++
    Marker.updateMarkerWithAPI "setContent" (getProp markerOptions "content")
      (getProp nextMarkerOptions "content") (getProp newMarkerOptions "content") ++
    Marker.updateMarkerWithAPI "setTitle" (getProp markerOptions "title")
      (getProp nextMarkerOptions "title") (getProp newMarkerOptions "title") ++
    Marker.updateMarkerWithAPI "setShadow" (getProp markerOptions "shadow")
      (getProp nextMarkerOptions "shadow") (getProp newMarkerOptions "shadow") ++
    Marker.updateMarkerWithAPI "setShape" (getProp markerOptions "shape")
      (getProp nextMarkerOptions "shape") (getProp newMarkerOptions "shape") ++
    Marker.updateMarkerWithAPI "setExtData" (getProp markerOptions "extData")
      (getProp nextMarkerOptions "extData") (getProp newMarkerOptions "extData")
  (false, calls, nextMarkerOptions, cloned.2)

/-- Translated from Marker.initMarker: deep copy the fields the SDK mutates,
construct the AMap.Marker with the copied options, attach it to the map with
setMap, and hide it when the visible prop is false.  Returns the options the
constructor received, the calls made on the new marker, and the advanced
counter. -/
def Marker.initMarker (markerOptions : Props) (visible : JSValue) (map : JSValue) (ctr : Nat) :
    Props × List Call × Nat :=
  let cloned := cloneDeep markerOptions Marker.NEED_DEEP_COPY_FIELDS ctr
  let newMarkerOptions := cloned.1
  let calls :=
    [⟨"setMap", [map]⟩] ++ (if jsIs visible (.bool false) then [⟨"hide", []⟩] else [])
  (newMarkerOptions, calls, cloned.2)

/-- Translated from Marker.componentWillUnmount: remove every recorded event
listener, then detach the marker with setMap(null). -/
def Marker.componentWillUnmount (marker : Instance) (eventListeners : List Listener) : Instance :=
  (removeInstanceEvent marker eventListeners).invoke "setMap" [.jsnull]

/-- Translated from Marker.render: the component renders nothing. -/
def Marker.render : JSValue :=
  .jsnull

example :
    ((Marker.shouldComponentUpdate [("visible", .bool true)] [("visible", .bool false)] 0).2.1).map
      Call.method = ["hide", "setOffset", "setLabel", "setIcon"] := rfl

example : (Marker.shouldComponentUpdate [] [] 5).1 = false := rfl

/-!
Helper lemmas about the props model.
-/

theorem getProp_setField_self (ps : Props) (k : String) (v : JSValue) :
    getProp (setField ps k v) k = v := by
  induction ps with
  | nil => simp [setField, getProp]
  | cons p rest ih =>
    by_cases h : p.1 == k
    · simp [setField, h, getProp]
    · simp [setField, h, getProp, ih]

theorem getProp_setField_other (ps : Props) (k k2 : String) (v : JSValue) (h : k ≠ k2) :
    getProp (setField ps k v) k2 = getProp ps k2 := by
  induction ps with
  | nil => simp [setField, getProp, h]
  | cons p rest ih =>
    by_cases hp : p.1 == k
    · have hp2 : p.1 = k := by simpa using hp
      simp [setField, hp, getProp, h, hp2]
    · simp [setField, hp, getProp, ih]

theorem containsKey_setField (ps : Props) (k k2 : String) (v : JSValue) :
    containsKey (setField ps k v) k2 = (containsKey ps k2 || (k == k2)) := by
  induction ps with
  | nil => simp [setField, containsKey]
  | cons p rest ih =>
    cases hp : (p.1 == k) with
    | true =>
      have hp2 : p.1 = k := by simpa using hp
      subst hp2
      simp only [setField, beq_self_eq_true, if_true, containsKey, List.any_cons]
      cases h1 : (p.1 == k2) <;> cases h2 : rest.any (fun q => q.1 == k2) <;> simp [h1, h2]
    | false =>
      have hstep : containsKey (setField (p :: rest) k v) k2
          = ((p.1 == k2) || containsKey (setField rest k v) k2) := by
        simp [setField, hp, containsKey]
      rw [hstep, ih]
      simp [containsKey, Bool.or_assoc]

theorem removeKeys_cons_drop (p : String × JSValue) (rest : Props) (keys : List String)
    (hk : keys.contains p.1 = true) :
    removeKeys (p :: rest) keys = removeKeys rest keys := by
  unfold removeKeys
  rw [List.filter_cons, hk]
  simp

theorem removeKeys_cons_keep (p : String × JSValue) (rest : Props) (keys : List String)
    (hk : keys.contains p.1 = false) :
    removeKeys (p :: rest) keys = p :: removeKeys rest keys := by
  unfold removeKeys
  rw [List.filter_cons, hk]
  simp

theorem getProp_removeKeys (ps : Props) (keys : List String) (k : String)
    (h : keys.contains k = false) :
    getProp (removeKeys ps keys) k = getProp ps k := by
  induction ps with
  | nil => simp [removeKeys, getProp]
  | cons p rest ih =>
    cases hk : (keys.contains p.1) with
    | true =>
      have hne : (p.1 == k) = false := by
        cases hq : (p.1 == k) with
        | true =>
          have hpk : p.1 = k := by simpa using hq
          rw [hpk] at hk
          rw [hk] at h
          exact absurd h (by simp)
        | false => rfl
      rw [removeKeys_cons_drop p rest keys hk, ih]
      simp [getProp, hne]
    | false =>
      rw [removeKeys_cons_keep p rest keys hk]
      cases hq : (p.1 == k) with
      | true => simp [getProp, hq]
      | false => simp [getProp, hq, ih]

theorem containsKey_removeKeys (ps : Props) (keys : List String) (k : String)
    (h : keys.contains k = true) :
    containsKey (removeKeys ps keys) k = false := by
  induction ps with
  | nil => simp [removeKeys, containsKey]
  | cons p rest ih =>
    cases hk : (keys.contains p.1) with
    | true =>
      rw [removeKeys_cons_drop p rest keys hk]
      exact ih
    | false =>
      have hne : (p.1 == k) = false := by
        cases hq : (p.1 == k) with
        | true =>
          have hpk : p.1 = k := by simpa using hq
          rw [hpk] at hk
          rw [h] at hk
          exact absurd hk (by simp)
        | false => rfl
      rw [removeKeys_cons_keep p rest keys hk]
      have hcons : containsKey (p :: removeKeys rest keys) k
          = ((p.1 == k) || containsKey (removeKeys rest keys) k) := by
        simp [containsKey]
      rw [hcons, hne, ih]
      rfl

theorem callsMethod_append (a b : List Call) (m : String) :
    callsMethod (a ++ b) m = (callsMethod a m || callsMethod b m) := by
  simp [callsMethod, List.any_append]

theorem callsMethod_updateMapWithAPI (apiName m : String) (p n : JSValue) (x : Option JSValue) :
    callsMethod (AMap.updateMapWithAPI apiName p n x) m =
      (!(isShallowEqual p n) && !((apiName == "setCenter") && !(truthy (x.getD n)))
        && (apiName == m)) := by
  unfold AMap.updateMapWithAPI
  cases h1 : isShallowEqual p n with
  | true => simp [h1, callsMethod]
  | false =>
    cases h2 : ((apiName == "setCenter") && !(truthy (x.getD n))) with
    | true => simp [h1, h2, callsMethod]
    | false => simp [h1, h2, callsMethod]

theorem callsMethod_updateMarkerWithAPI (apiName m : String) (p n w : JSValue) :
    callsMethod (Marker.updateMarkerWithAPI apiName p n w) m =
      (!(isShallowEqual p n) && (apiName == m)) := by
  unfold Marker.updateMarkerWithAPI
  cases h1 : isShallowEqual p n with
  | true => simp [h1, callsMethod]
  | false => simp [h1, callsMethod]

theorem callsMethod_toggleVisible (m : String) (p n : JSValue) :
    callsMethod (Marker.toggleVisible p n) m =
      (!(isShallowEqual p n) &&
        ((jsIs n (.bool true) && ("show" == m)) || (jsIs n (.bool false) && ("hide" == m)))) := by
  unfold Marker.toggleVisible
  cases h1 : isShallowEqual p n with
  | true => simp [h1, callsMethod]
  | false =>
    cases h2 : jsIs n (.bool true) with
    | true =>
      have h3 : jsIs n (.bool false) = false := by
        cases n <;> simp_all [jsIs]
      simp [h1, h2, h3, callsMethod]
    | false =>
      cases h3 : jsIs n (.bool false) with
      | true => simp [h1, h2, h3, callsMethod]
      | false => simp [h1, h2, h3, callsMethod]

/-!
Claim C1.
-/

/-- Claim C1, counterexample: with a previous center and a next props object
without center, the compared center values are not shallow-equal and yet no
setCenter call is made (the falsy-center guard of updateMapWithAPI skips it),
so a diffed option setter is not invoked if and only if the compared values
are not shallow-equal. -/
theorem setCenter_skipped_despite_unequal_center :
    isShallowEqual (getProp [("center", JSValue.arr 5 [JSValue.num 1, JSValue.num 2])] "center")
        (getProp (AMap.parseMapOptions [] true 0).1 "center") = false ∧
    callsMethod (AMap.componentDidUpdate true
        [("center", JSValue.arr 5 [JSValue.num 1, JSValue.num 2])] [] true 0).1 "setCenter"
      = false :=
  ⟨rfl, rfl⟩

/-- Claim C1 as amended: during an update of either component, every diffed map
option setter and every diffed marker option setter is invoked exactly when the
previous and next compared values are not shallow-equal, except setCenter,
which is additionally skipped when the next center value is falsy; show and
hide run only on a visibility change to true resp. false; and an update in
which every compared value is shallow-equal to its predecessor performs no
call at all.  The first two conjuncts state the no-change case, the rest
characterise each setter. -/
theorem setter_called_iff_not_shallowEqual_except_falsy_center
    (mapOptions props markerOptions nextProps : Props) (loaded : Bool) (ctr mctr : Nat) :
    ((∀ k ∈ ["zoom", "labelzIndex", "center", "city", "boundsProp", "lang", "rotation",
        "status", "defaultCursor", "mapStyle", "features", "defaultLayer", "pitch"],
      isShallowEqual (getProp mapOptions k) (getProp (AMap.parseMapOptions props loaded ctr).1 k)
        = true) →
      (AMap.componentDidUpdate true mapOptions props loaded ctr).1 = []) ∧
    ((∀ k ∈ ["visible", "anchor", "offset", "animation", "clickable", "position", "angle",
        "label", "zIndex", "icon", "draggable", "cursor", "content", "title", "shadow",
        "shape", "extData"],
      isShallowEqual (getProp markerOptions k) (getProp (Marker.parseMarkerOptions nextProps mctr).1 k)
        = true) →
      (Marker.shouldComponentUpdate markerOptions nextProps mctr).2.1 = []) ∧
    (callsMethod (AMap.componentDidUpdate true mapOptions props loaded ctr).1 "setZoom"
      = !(isShallowEqual (getProp mapOptions "zoom")
          (getProp (AMap.parseMapOptions props loaded ctr).1 "zoom"))) ∧
    (callsMethod (AMap.componentDidUpdate true mapOptions props loaded ctr).1 "setLabelzIndex"
      = !(isShallowEqual (getProp mapOptions "labelzIndex")
          (getProp (AMap.parseMapOptions props loaded ctr).1 "labelzIndex"))) ∧
    (callsMethod (AMap.componentDidUpdate true mapOptions props loaded ctr).1 "setCenter"
      = (!(isShallowEqual (getProp mapOptions "center")
          (getProp (AMap.parseMapOptions props loaded ctr).1 "center"))
         && truthy (getProp (AMap.parseMapOptions props loaded ctr).1 "center"))) ∧
    (callsMethod (AMap.componentDidUpdate true mapOptions props loaded ctr).1 "setCity"
      = !(isShallowEqual (getProp mapOptions "city")
          (getProp (AMap.parseMapOptions props loaded ctr).1 "city"))) ∧
    (callsMethod (AMap.componentDidUpdate true mapOptions props loaded ctr).1 "setBounds"
      = !(isShallowEqual (getProp mapOptions "boundsProp")
          (getProp (AMap.parseMapOptions props loaded ctr).1 "boundsProp"))) ∧
    (callsMethod (AMap.componentDidUpdate true mapOptions props loaded ctr).1 "setLang"
      = !(isShallowEqual (getProp mapOptions "lang")
          (getProp (AMap.parseMapOptions props loaded ctr).1 "lang"))) ∧
    (callsMethod (AMap.componentDidUpdate true mapOptions props loaded ctr).1 "setRotation"
      = !(isShallowEqual (getProp mapOptions "rotation")
          (getProp (AMap.parseMapOptions props loaded ctr).1 "rotation"))) ∧
    (callsMethod (AMap.componentDidUpdate true mapOptions props loaded ctr).1 "setStatus"
      = !(isShallowEqual (getProp mapOptions "status")
          (getProp (AMap.parseMapOptions props loaded ctr).1 "status"))) ∧
    (callsMethod (AMap.componentDidUpdate true mapOptions props loaded ctr).1 "setDefaultCursor"
      = !(isShallowEqual (getProp mapOptions "defaultCursor")
          (getProp (AMap.parseMapOptions props loaded ctr).1 "defaultCursor"))) ∧
    (callsMethod (AMap.componentDidUpdate true mapOptions props loaded ctr).1 "setMapStyle"
      = !(isShallowEqual (getProp mapOptions "mapStyle")
          (getProp (AMap.parseMapOptions props loaded ctr).1 "mapStyle"))) ∧
    (callsMethod (AMap.componentDidUpdate true mapOptions props loaded ctr).1 "setFeatures"
      = !(isShallowEqual (getProp mapOptions "features")
          (getProp (AMap.parseMapOptions props loaded ctr).1 "features"))) ∧
    (callsMethod (AMap.componentDidUpdate true mapOptions props loaded ctr).1 "setDefaultLayer"
      = !(isShallowEqual (getProp mapOptions "defaultLayer")
          (getProp (AMap.parseMapOptions props loaded ctr).1 "defaultLayer"))) ∧
    (callsMethod (AMap.componentDidUpdate true mapOptions props loaded ctr).1 "setPitch"
      = !(isShallowEqual (getProp mapOptions "pitch")
          (getProp (AMap.parseMapOptions props loaded ctr).1 "pitch"))) ∧
    (callsMethod (Marker.shouldComponentUpdate markerOptions nextProps mctr).2.1 "show"
      = (!(isShallowEqual (getProp markerOptions "visible")
          (getProp (Marker.parseMarkerOptions nextProps mctr).1 "visible"))
         && jsIs (getProp (Marker.parseMarkerOptions nextProps mctr).1 "visible") (.bool true))) ∧
    (callsMethod (Marker.shouldComponentUpdate markerOptions nextProps mctr).2.1 "hide"
      = (!(isShallowEqual (getProp markerOptions "visible")
          (getProp (Marker.parseMarkerOptions nextProps mctr).1 "visible"))
         && jsIs (getProp (Marker.parseMarkerOptions nextProps mctr).1 "visible") (.bool false))) ∧
    (callsMethod (Marker.shouldComponentUpdate markerOptions nextProps mctr).2.1 "setAnchor"
      = !(isShallowEqual (getProp markerOptions "anchor")
          (getProp (Marker.parseMarkerOptions nextProps mctr).1 "anchor"))) ∧
    (callsMethod (Marker.shouldComponentUpdate markerOptions nextProps mctr).2.1 "setOffset"
      = !(isShallowEqual (getProp markerOptions "offset")
          (getProp (Marker.parseMarkerOptions nextProps mctr).1 "offset"))) ∧
    (callsMethod (Marker.shouldComponentUpdate markerOptions nextProps mctr).2.1 "setAnimation"
      = !(isShallowEqual (getProp markerOptions "animation")
          (getProp (Marker.parseMarkerOptions nextProps mctr).1 "animation"))) ∧
    (callsMethod (Marker.shouldComponentUpdate markerOptions nextProps mctr).2.1 "setClickable"
      = !(isShallowEqual (getProp markerOptions "clickable")
          (getProp (Marker.parseMarkerOptions nextProps mctr).1 "clickable"))) ∧
    (callsMethod (Marker.shouldComponentUpdate markerOptions nextProps mctr).2.1 "setPosition"
      = !(isShallowEqual (getProp markerOptions "position")
          (getProp (Marker.parseMarkerOptions nextProps mctr).1 "position"))) ∧
    (callsMethod (Marker.shouldComponentUpdate markerOptions nextProps mctr).2.1 "setAngle"
      = !(isShallowEqual (getProp markerOptions "angle")
          (getProp (Marker.parseMarkerOptions nextProps mctr).1 "angle"))) ∧
    (callsMethod (Marker.shouldComponentUpdate markerOptions nextProps mctr).2.1 "setLabel"
      = !(isShallowEqual (getProp markerOptions "label")
          (getProp (Marker.parseMarkerOptions nextProps mctr).1 "label"))) ∧
    (callsMethod (Marker.shouldComponentUpdate markerOptions nextProps mctr).2.1 "setzIndex"
      = !(isShallowEqual (getProp markerOptions "zIndex")
          (getProp (Marker.parseMarkerOptions nextProps mctr).1 "zIndex"))) ∧
    (callsMethod (Marker.shouldComponentUpdate markerOptions nextProps mctr).2.1 "setIcon"
      = !(isShallowEqual (getProp markerOptions "icon")
          (getProp (Marker.parseMarkerOptions nextProps mctr).1 "icon"))) ∧
    (callsMethod (Marker.shouldComponentUpdate markerOptions nextProps mctr).2.1 "setDraggable"
      = !(isShallowEqual (getProp markerOptions "draggable")
          (getProp (Marker.parseMarkerOptions nextProps mctr).1 "draggable"))) ∧
    (callsMethod (Marker.shouldComponentUpdate markerOptions nextProps mctr).2.1 "setCursor"
      = !(isShallowEqual (getProp markerOptions "cursor")
          (getProp (Marker.parseMarkerOptions nextProps mctr).1 "cursor"))) ∧
    (callsMethod (Marker.shouldComponentUpdate markerOptions nextProps mctr).2.1 "setContent"
      = !(isShallowEqual (getProp markerOptions "content")
          (getProp (Marker.parseMarkerOptions nextProps mctr).1 "content"))) ∧
    (callsMethod (Marker.shouldComponentUpdate markerOptions nextProps mctr).2.1 "setTitle"
      = !(isShallowEqual (getProp markerOptions "title")
          (getProp (Marker.parseMarkerOptions nextProps mctr).1 "title"))) ∧
    (callsMethod (Marker.shouldComponentUpdate markerOptions nextProps mctr).2.1 "setShadow"
      = !(isShallowEqual (getProp markerOptions "shadow")
          (getProp (Marker.parseMarkerOptions nextProps mctr).1 "shadow"))) ∧
    (callsMethod (Marker.shouldComponentUpdate markerOptions nextProps mctr).2.1 "setShape"
      = !(isShallowEqual (getProp markerOptions "shape")
          (getProp (Marker.parseMarkerOptions nextProps mctr).1 "shape"))) ∧
    (callsMethod (Marker.shouldComponentUpdate markerOptions nextProps mctr).2.1 "setExtData"
      = !(isShallowEqual (getProp markerOptions "extData")
          (getProp (Marker.parseMarkerOptions nextProps mctr).1 "extData"))) := by
  refine ⟨?_, ?_, ?_, ?_, ?_, ?_, ?_, ?_, ?_, ?_, ?_, ?_, ?_, ?_, ?_, ?_, ?_, ?_, ?_, ?_,
    ?_, ?_, ?_, ?_, ?_, ?_, ?_, ?_, ?_, ?_, ?_, ?_, ?_⟩
  · intro hall
    have e1 := hall "zoom" (by simp)
    have e2 := hall "labelzIndex" (by simp)
    have e3 := hall "center" (by simp)
    have e4 := hall "city" (by simp)
    have e5 := hall "boundsProp" (by simp)
    have e6 := hall "lang" (by simp)
    have e7 := hall "rotation" (by simp)
    have e8 := hall "status" (by simp)
    have e9 := hall "defaultCursor" (by simp)
    have e10 := hall "mapStyle" (by simp)
    have e11 := hall "features" (by simp)
    have e12 := hall "defaultLayer" (by simp)
    have e13 := hall "pitch" (by simp)
    simp [AMap.componentDidUpdate, AMap.updateMapWithAPI,
      e1, e2, e3, e4, e5, e6, e7, e8, e9, e10, e11, e12, e13]
  · intro hall
    have e1 := hall "visible" (by simp)
    have e2 := hall "anchor" (by simp)
    have e3 := hall "offset" (by simp)
    have e4 := hall "animation" (by simp)
    have e5 := hall "clickable" (by simp)
    have e6 := hall "position" (by simp)
    have e7 := hall "angle" (by simp)
    have e8 := hall "label" (by simp)
    have e9 := hall "zIndex" (by simp)
    have e10 := hall "icon" (by simp)
    have e11 := hall "draggable" (by simp)
    have e12 := hall "cursor" (by simp)
    have e13 := hall "content" (by simp)
    have e14 := hall "title" (by simp)
    have e15 := hall "shadow" (by simp)
    have e16 := hall "shape" (by simp)
    have e17 := hall "extData" (by simp)
    simp [Marker.shouldComponentUpdate, Marker.updateMarkerWithAPI, Marker.toggleVisible,
      e1, e2, e3, e4, e5, e6, e7, e8, e9, e10, e11, e12, e13, e14, e15, e16, e17]
  all_goals
    simp [AMap.componentDidUpdate, Marker.shouldComponentUpdate, callsMethod_append,
      callsMethod_updateMapWithAPI, callsMethod_updateMarkerWithAPI, callsMethod_toggleVisible]

/-- Claim C1, witness: an update in which nothing changed makes no call on
either foreign instance. -/
theorem setter_called_iff_witness :
    (AMap.componentDidUpdate true (AMap.parseMapOptions [] true 0).1 [] true 0).1 = [] ∧
    (Marker.shouldComponentUpdate (Marker.parseMarkerOptions [] 0).1 [] 0).2.1 = [] := by
  have h := setter_called_iff_not_shallowEqual_except_falsy_center
    (AMap.parseMapOptions [] true 0).1 [] (Marker.parseMarkerOptions [] 0).1 [] true 0 0
  refine ⟨h.1 ?_, h.2.1 ?_⟩
  · intro k hk
    fin_cases hk <;> rfl
  · intro k hk
    fin_cases hk <;> rfl

/-!
Claim C8.
-/

/-- Claim C8: in AMap.updateMapWithAPI, a setCenter with a falsy next value is
never invoked even when the compared values are not shallow-equal, while for
every other API name the shallow-equality check alone decides the call. -/
theorem setCenter_sole_falsy_guard (apiName : String) (p n : JSValue) (x : Option JSValue) :
    (truthy (x.getD n) = false →
      AMap.updateMapWithAPI "setCenter" p n x = []) ∧
    (apiName ≠ "setCenter" →
      AMap.updateMapWithAPI apiName p n x
        = (if isShallowEqual p n = false then [⟨apiName, [x.getD n]⟩] else [])) := by
  constructor
  · intro hf
    unfold AMap.updateMapWithAPI
    cases h1 : isShallowEqual p n with
    | true => simp [h1]
    | false => simp [h1, hf]
  · intro hne
    unfold AMap.updateMapWithAPI
    have hb : (apiName == "setCenter") = false := by
      cases hq : (apiName == "setCenter") with
      | true => exact absurd (by simpa using hq) hne
      | false => rfl
    cases h1 : isShallowEqual p n with
    | true => simp [h1]
    | false => simp [h1, hb]

/-- Claim C8, witness: a center change to undefined is dropped, while a zoom
change to undefined is applied. -/
theorem setCenter_sole_falsy_guard_witness :
    AMap.updateMapWithAPI "setCenter" (JSValue.arr 5 [JSValue.num 1, JSValue.num 2])
        JSValue.undefined none = [] ∧
    AMap.updateMapWithAPI "setZoom" (JSValue.num 1) JSValue.undefined none
      = [⟨"setZoom", [JSValue.undefined]⟩] := by
  constructor
  · exact (setCenter_sole_falsy_guard "setCenter"
      (JSValue.arr 5 [JSValue.num 1, JSValue.num 2]) JSValue.undefined none).1 rfl
  · rw [(setCenter_sole_falsy_guard "setZoom" (JSValue.num 1) JSValue.undefined none).2
      (by simp)]
    rfl

/-!
Claim C10.
-/

/-- Claim C10: Marker.shouldComponentUpdate returns false on every invocation
and Marker.render always returns null, so the host framework never re-renders
the component; the recorded imperative calls inside shouldComponentUpdate are
the only effects of a prop change. -/
theorem marker_never_rerenders (markerOptions nextProps : Props) (ctr : Nat) :
    (Marker.shouldComponentUpdate markerOptions nextProps ctr).1 = false ∧
    Marker.render = JSValue.jsnull :=
  ⟨rfl, rfl⟩

/-!
Claim C6.
-/

theorem ne_of_contains_ne (keys : List String) (a k : String)
    (hk : keys.contains k = true) (ha : keys.contains a = false) : (a == k) = false := by
  cases hq : (a == k) with
  | true =>
    have hak : a = k := by simpa using hq
    rw [hak, hk] at ha
    exact absurd ha (by simp)
  | false => rfl

/-- Claim C6: option parsing separates configuration from callbacks.  The
result of AMap.parseMapOptions contains none of the extracted event-callback
or loader keys and passes every other prop through unchanged apart from the
reshaped bounds (and the added boundsProp memo); Marker.parseMarkerOptions
likewise strips its named event-callback keys, passes every other prop through
unchanged apart from icon, label and offset, clears a null or undefined icon,
and reshapes an array offset into an SDK Pixel value. -/
theorem parse_options_strip_callbacks
    (props : Props) (loaded : Bool) (ctr mctr : Nat) (k : String) :
    (AMap.MAP_EXTRACTED_KEYS.contains k = true →
      containsKey (AMap.parseMapOptions props loaded ctr).1 k = false) ∧
    (AMap.MAP_EXTRACTED_KEYS.contains k = false → k ≠ "bounds" → k ≠ "boundsProp" →
      getProp (AMap.parseMapOptions props loaded ctr).1 k = getProp props k) ∧
    (Marker.MARKER_EVENT_KEYS.contains k = true →
      containsKey (Marker.parseMarkerOptions props mctr).1 k = false) ∧
    (Marker.MARKER_EVENT_KEYS.contains k = false → k ≠ "icon" → k ≠ "label" → k ≠ "offset" →
      getProp (Marker.parseMarkerOptions props mctr).1 k = getProp props k) ∧
    (isNullVoid (getProp props "icon") = true →
      getProp (Marker.parseMarkerOptions props mctr).1 "icon" = JSValue.jsnull) ∧
    (∀ i es, getProp props "offset" = JSValue.arr i es →
      ∃ c, getProp (Marker.parseMarkerOptions props mctr).1 "offset"
        = JSValue.foreign c "Pixel" es) := by
  refine ⟨?_, ?_, ?_, ?_, ?_, ?_⟩
  · intro hk
    have h1 : containsKey (removeKeys props AMap.MAP_EXTRACTED_KEYS) k = false :=
      containsKey_removeKeys _ _ _ hk
    have hb := ne_of_contains_ne AMap.MAP_EXTRACTED_KEYS "bounds" k hk (by rfl)
    have hbp := ne_of_contains_ne AMap.MAP_EXTRACTED_KEYS "boundsProp" k hk (by rfl)
    simp [AMap.parseMapOptions, containsKey_setField, h1, hb, hbp]
  · intro hk hb hbp
    simp only [AMap.parseMapOptions]
    rw [getProp_setField_other _ _ _ _ (Ne.symm hbp), getProp_setField_other _ _ _ _ (Ne.symm hb),
      getProp_removeKeys _ _ _ hk]
  · intro hk
    have h1 : containsKey (removeKeys props Marker.MARKER_EVENT_KEYS) k = false :=
      containsKey_removeKeys _ _ _ hk
    have hi := ne_of_contains_ne Marker.MARKER_EVENT_KEYS "icon" k hk (by rfl)
    have hl := ne_of_contains_ne Marker.MARKER_EVENT_KEYS "label" k hk (by rfl)
    have ho := ne_of_contains_ne Marker.MARKER_EVENT_KEYS "offset" k hk (by rfl)
    simp [Marker.parseMarkerOptions, containsKey_setField, h1, hi, hl, ho]
  · intro hk hi hl ho
    simp only [Marker.parseMarkerOptions]
    rw [getProp_setField_other _ _ _ _ (Ne.symm ho), getProp_setField_other _ _ _ _ (Ne.symm hl),
      getProp_setField_other _ _ _ _ (Ne.symm hi), getProp_removeKeys _ _ _ hk]
  · intro hnv
    have hmo : getProp (removeKeys props Marker.MARKER_EVENT_KEYS) "icon"
        = getProp props "icon" := getProp_removeKeys _ _ _ (by rfl)
    simp only [Marker.parseMarkerOptions]
    rw [getProp_setField_other _ _ _ _ (by simp), getProp_setField_other _ _ _ _ (by simp),
      getProp_setField_self]
    simp [Marker.parseIcon, hmo, hnv]
  · intro i es hoff
    have hmo : getProp (removeKeys props Marker.MARKER_EVENT_KEYS) "offset"
        = JSValue.arr i es := by
      rw [getProp_removeKeys _ _ _ (by rfl)]
      exact hoff
    simp only [Marker.parseMarkerOptions]
    rw [getProp_setField_self]
    simp only [hmo, Marker.parseOffset]
    exact ⟨_, rfl⟩

/-- Claim C6, witness: on a concrete props object holding a callback, a loader
key and a plain option, the parsed options drop the callback and loader keys
and keep the plain option; a concrete marker props object keeps its position,
drops onClick, clears the undefined icon and reshapes the array offset. -/
theorem parse_options_strip_callbacks_witness :
    containsKey (AMap.parseMapOptions [("appKey", JSValue.str "k"), ("zoom", JSValue.num 3),
        ("onClick", JSValue.func 1)] true 0).1 "onClick" = false ∧
    getProp (AMap.parseMapOptions [("appKey", JSValue.str "k"), ("zoom", JSValue.num 3),
        ("onClick", JSValue.func 1)] true 0).1 "zoom" = JSValue.num 3 ∧
    containsKey (Marker.parseMarkerOptions [("position", JSValue.arr 4 [JSValue.num 1]),
        ("onClick", JSValue.func 2), ("offset", JSValue.arr 5 [JSValue.num 6])] 10).1 "onClick"
      = false ∧
    getProp (Marker.parseMarkerOptions [("position", JSValue.arr 4 [JSValue.num 1]),
        ("onClick", JSValue.func 2), ("offset", JSValue.arr 5 [JSValue.num 6])] 10).1 "position"
      = JSValue.arr 4 [JSValue.num 1] ∧
    getProp (Marker.parseMarkerOptions [("position", JSValue.arr 4 [JSValue.num 1]),
        ("onClick", JSValue.func 2), ("offset", JSValue.arr 5 [JSValue.num 6])] 10).1 "icon"
      = JSValue.jsnull ∧
    (∃ c, getProp (Marker.parseMarkerOptions [("position", JSValue.arr 4 [JSValue.num 1]),
        ("onClick", JSValue.func 2), ("offset", JSValue.arr 5 [JSValue.num 6])] 10).1 "offset"
      = JSValue.foreign c "Pixel" [JSValue.num 6]) := by
  refine ⟨?_, ?_, ?_, ?_, ?_, ?_⟩
  · exact (parse_options_strip_callbacks [("appKey", JSValue.str "k"), ("zoom", JSValue.num 3),
      ("onClick", JSValue.func 1)] true 0 0 "onClick").1 (by rfl)
  · exact (parse_options_strip_callbacks [("appKey", JSValue.str "k"), ("zoom", JSValue.num 3),
      ("onClick", JSValue.func 1)] true 0 0 "zoom").2.1 (by rfl) (by simp) (by simp)
  · exact (parse_options_strip_callbacks [("position", JSValue.arr 4 [JSValue.num 1]),
      ("onClick", JSValue.func 2), ("offset", JSValue.arr 5 [JSValue.num 6])] true 0 10
      "onClick").2.2.1 (by rfl)
  · exact (parse_options_strip_callbacks [("position", JSValue.arr 4 [JSValue.num 1]),
      ("onClick", JSValue.func 2), ("offset", JSValue.arr 5 [JSValue.num 6])] true 0 10
      "position").2.2.2.1 (by rfl) (by simp) (by simp) (by simp)
  · exact (parse_options_strip_callbacks [("position", JSValue.arr 4 [JSValue.num 1]),
      ("onClick", JSValue.func 2), ("offset", JSValue.arr 5 [JSValue.num 6])] true 0 10
      "icon").2.2.2.2.1 (by rfl)
  · exact (parse_options_strip_callbacks [("position", JSValue.arr 4 [JSValue.num 1]),
      ("onClick", JSValue.func 2), ("offset", JSValue.arr 5 [JSValue.num 6])] true 0 10
      "offset").2.2.2.2.2 5 [JSValue.num 6] (by rfl)

/-!
Claim C5.
-/

/-- Claim C5: bounds diffing is memoized against the raw prop.  When the
library is loaded, boundsProp preserves the original bounds prop unchanged; an
array bounds prop yields a freshly constructed AMap.Bounds in the bounds
field; componentDidUpdate compares boundsProp, so setBounds is invoked exactly
when the original bounds prop changed under shallow equality; and in
particular re-parsing unchanged props produces no setBounds call even though
the two parses build distinct (never shallow-equal) Bounds instances. -/
theorem bounds_memoized_against_raw_prop (props mapOptions : Props) (ctr c0 c1 : Nat) :
    (getProp (AMap.parseMapOptions props true ctr).1 "boundsProp" = getProp props "bounds") ∧
    (∀ i es, getProp props "bounds" = JSValue.arr i es →
      getProp (AMap.parseMapOptions props true ctr).1 "bounds" = JSValue.foreign ctr "Bounds" es ∧
      (AMap.parseMapOptions props true ctr).2 = ctr + 1) ∧
    (callsMethod (AMap.componentDidUpdate true mapOptions props true ctr).1 "setBounds"
      = !(isShallowEqual (getProp mapOptions "boundsProp")
          (getProp (AMap.parseMapOptions props true ctr).1 "boundsProp"))) ∧
    (∀ i es, getProp props "bounds" = JSValue.arr i es →
      callsMethod (AMap.componentDidUpdate true (AMap.parseMapOptions props true c0).1 props
          true c1).1 "setBounds" = false ∧
      (c0 ≠ c1 →
        isShallowEqual (getProp (AMap.parseMapOptions props true c0).1 "bounds")
          (getProp (AMap.parseMapOptions props true c1).1 "bounds") = false)) := by
  have hrm : getProp (removeKeys props AMap.MAP_EXTRACTED_KEYS) "bounds" = getProp props "bounds" :=
    getProp_removeKeys _ _ _ (by rfl)
  have key : ∀ c : Nat,
      getProp (AMap.parseMapOptions props true c).1 "boundsProp" = getProp props "bounds" := by
    intro c
    simp [AMap.parseMapOptions, getProp_setField_self, hrm]
  have bval : ∀ (c i : Nat) (es : List JSValue), getProp props "bounds" = JSValue.arr i es →
      getProp (AMap.parseMapOptions props true c).1 "bounds" = JSValue.foreign c "Bounds" es := by
    intro c i es h
    have hmo : getProp (removeKeys props AMap.MAP_EXTRACTED_KEYS) "bounds" = JSValue.arr i es := by
      rw [hrm]; exact h
    simp only [AMap.parseMapOptions]
    rw [getProp_setField_other _ _ _ _ (by simp), getProp_setField_self]
    simp [hmo]
  have callchar : ∀ mo : Props,
      callsMethod (AMap.componentDidUpdate true mo props true c1).1 "setBounds"
        = !(isShallowEqual (getProp mo "boundsProp")
            (getProp (AMap.parseMapOptions props true c1).1 "boundsProp")) := by
    intro mo
    simp [AMap.componentDidUpdate, callsMethod_append, callsMethod_updateMapWithAPI]
  refine ⟨key ctr, ?_, ?_, ?_⟩
  · intro i es h
    have hmo : getProp (removeKeys props AMap.MAP_EXTRACTED_KEYS) "bounds" = JSValue.arr i es := by
      rw [hrm]; exact h
    exact ⟨bval ctr i es h, by simp [AMap.parseMapOptions, hmo]⟩
  · simp [AMap.componentDidUpdate, callsMethod_append, callsMethod_updateMapWithAPI]
  · intro i es h
    constructor
    · rw [callchar (AMap.parseMapOptions props true c0).1, key c0, key c1, h]
      simp [isShallowEqual, jsIs]
    · intro hne
      rw [bval c0 i es h, bval c1 i es h]
      simp [isShallowEqual, jsIs, hne]

/-- Claim C5, witness: with a concrete array bounds prop, boundsProp keeps the
raw prop, the parsed bounds is a fresh Bounds instance, and an update with
unchanged props makes no setBounds call although the two parses built
non-shallow-equal Bounds objects. -/
theorem bounds_memoized_witness :
    getProp (AMap.parseMapOptions [("bounds", JSValue.arr 7 [JSValue.num 1, JSValue.num 2])]
        true 0).1 "boundsProp" = JSValue.arr 7 [JSValue.num 1, JSValue.num 2] ∧
    getProp (AMap.parseMapOptions [("bounds", JSValue.arr 7 [JSValue.num 1, JSValue.num 2])]
        true 0).1 "bounds" = JSValue.foreign 0 "Bounds" [JSValue.num 1, JSValue.num 2] ∧
    callsMethod (AMap.componentDidUpdate true
        (AMap.parseMapOptions [("bounds", JSValue.arr 7 [JSValue.num 1, JSValue.num 2])] true 0).1
        [("bounds", JSValue.arr 7 [JSValue.num 1, JSValue.num 2])] true 1).1 "setBounds" = false ∧
    isShallowEqual
        (getProp (AMap.parseMapOptions [("bounds", JSValue.arr 7 [JSValue.num 1, JSValue.num 2])]
          true 0).1 "bounds")
        (getProp (AMap.parseMapOptions [("bounds", JSValue.arr 7 [JSValue.num 1, JSValue.num 2])]
          true 1).1 "bounds") = false := by
  have h := bounds_memoized_against_raw_prop
    [("bounds", JSValue.arr 7 [JSValue.num 1, JSValue.num 2])] [] 0 0 1
  have harr : getProp [("bounds", JSValue.arr 7 [JSValue.num 1, JSValue.num 2])] "bounds"
      = JSValue.arr 7 [JSValue.num 1, JSValue.num 2] := rfl
  refine ⟨?_, ?_, ?_, ?_⟩
  · rw [h.1]
    exact harr
  · exact (h.2.1 7 [JSValue.num 1, JSValue.num 2] harr).1
  · exact (h.2.2.2 7 [JSValue.num 1, JSValue.num 2] harr).1
  · exact (h.2.2.2 7 [JSValue.num 1, JSValue.num 2] harr).2 (by simp)

/-!
Helper lemmas for the event listener bridging.
-/

/-- The on call recorded when binding one callback entry. -/
def onCallOf (p : String × Nat) : Call :=
  ⟨"on", [.str (toLowerAscii (p.1.drop 2)), .func p.2]⟩

/-- The eventCBList record produced for one callback entry. -/
def listenerOf (p : String × Nat) : Listener :=
  ⟨toLowerAscii (p.1.drop 2), p.2⟩

/-- The listener registered on the instance for one callback entry. -/
def boundPairOf (p : String × Nat) : String × Nat :=
  (toLowerAscii (p.1.drop 2), p.2)

/-- The off call recorded when removing one eventCBList record. -/
def offCallOf (l : Listener) : Call :=
  ⟨"off", [.str l.eventName, .func l.handler]⟩

/-- Effect of one off call on the registered listener list. -/
def offPairs (st : List (String × Nat)) (l : Listener) : List (String × Nat) :=
  st.filter (fun p => !(p.1 == l.eventName && p.2 == l.handler))

/-- Effect of a sequence of off calls on the registered listener list. -/
def offAllPairs (st : List (String × Nat)) : List Listener → List (String × Nat)
  | [] => st
  | l :: rest => offAllPairs (offPairs st l) rest

theorem bindInstanceEvent_spec (callbacks : List (String × Nat)) (inst : Instance)
    (acc : List Listener) :
    bindInstanceEvent inst callbacks acc =
      (⟨inst.listeners ++ callbacks.map boundPairOf, inst.callLog ++ callbacks.map onCallOf⟩,
        acc ++ callbacks.map listenerOf) := by
  induction callbacks generalizing inst acc with
  | nil => simp [bindInstanceEvent]
  | cons p rest ih =>
    rw [bindInstanceEvent, ih]
    simp [Instance.on, onCallOf, listenerOf, boundPairOf]

theorem removeInstanceEvent_spec (ls : List Listener) (inst : Instance) :
    removeInstanceEvent inst ls =
      ⟨offAllPairs inst.listeners ls, inst.callLog ++ ls.map offCallOf⟩ := by
  induction ls generalizing inst with
  | nil => simp [removeInstanceEvent, offAllPairs]
  | cons l rest ih =>
    rw [removeInstanceEvent, ih]
    simp [Instance.off, offAllPairs, offPairs, offCallOf]

theorem offAllPairs_append_fresh (ls : List Listener) (st1 st2 : List (String × Nat))
    (hfresh : ∀ l ∈ ls, ∀ q ∈ st1, q.2 ≠ l.handler) :
    offAllPairs (st1 ++ st2) ls = st1 ++ offAllPairs st2 ls := by
  induction ls generalizing st2 with
  | nil => simp [offAllPairs]
  | cons l rest ih =>
    have hst1 : offPairs (st1 ++ st2) l = st1 ++ offPairs st2 l := by
      unfold offPairs
      rw [List.filter_append]
      congr 1
      apply List.filter_eq_self.mpr
      intro q hq
      have hne : q.2 ≠ l.handler := hfresh l (by simp) q hq
      have hb : (q.2 == l.handler) = false := by
        cases hx : (q.2 == l.handler) with
        | true => exact absurd (by simpa using hx) hne
        | false => rfl
      simp [hb]
    rw [offAllPairs, hst1, offAllPairs]
    exact ih (offPairs st2 l) (fun l2 hl2 q hq => hfresh l2 (by simp [hl2]) q hq)

theorem offAllPairs_covered_nil (ls : List Listener) (st : List (String × Nat))
    (hcov : ∀ q ∈ st, ∃ l ∈ ls, q.1 = l.eventName ∧ q.2 = l.handler) :
    offAllPairs st ls = [] := by
  induction ls generalizing st with
  | nil =>
    cases st with
    | nil => rfl
    | cons q rest =>
      obtain ⟨l, hl, _⟩ := hcov q (by simp)
      exact absurd hl (by simp)
  | cons l rest ih =>
    rw [offAllPairs]
    apply ih
    intro q hq
    have hmem : q ∈ st := List.mem_of_mem_filter hq
    have hpred := List.of_mem_filter hq
    obtain ⟨l2, hl2, h1, h2⟩ := hcov q hmem
    rcases List.mem_cons.mp hl2 with h | h
    · exfalso
      rw [h] at h1 h2
      simp [h1, h2] at hpred
    · exact ⟨l2, h, h1, h2⟩

/-!
Claim C2.
-/

/-- Claim C2: event listener bridging is a round trip.  bindInstanceEvent
registers each handler under the event name obtained by dropping the first two
characters of its key and lowercasing the rest, appending exactly one
{eventName, handler} record per key; removeInstanceEvent on that list calls
instance.off for exactly the pairs that were bound, so afterwards no listener
registered by the binding remains on the instance. -/
theorem bind_remove_round_trip (callbacks : List (String × Nat)) (inst : Instance)
    (hkeys : ∀ p ∈ callbacks, p.1.take 2 = "on")
    (hfresh : ∀ p ∈ callbacks, ∀ q ∈ inst.listeners, q.2 ≠ p.2) :
    ((bindInstanceEvent inst callbacks []).2).length = callbacks.length ∧
    (∀ p ∈ callbacks,
      (⟨toLowerAscii (p.1.drop 2), p.2⟩ : Listener) ∈ (bindInstanceEvent inst callbacks []).2) ∧
    ((bindInstanceEvent inst callbacks []).1).callLog
      = inst.callLog ++ callbacks.map onCallOf ∧
    (removeInstanceEvent (bindInstanceEvent inst callbacks []).1
        (bindInstanceEvent inst callbacks []).2).callLog
      = inst.callLog ++ callbacks.map onCallOf
        ++ ((bindInstanceEvent inst callbacks []).2).map offCallOf ∧
    (removeInstanceEvent (bindInstanceEvent inst callbacks []).1
        (bindInstanceEvent inst callbacks []).2).listeners = inst.listeners := by
  have hb := bindInstanceEvent_spec callbacks inst []
  rw [hb]
  have hlisteners :
      offAllPairs (inst.listeners ++ callbacks.map boundPairOf) (callbacks.map listenerOf)
        = inst.listeners := by
    rw [offAllPairs_append_fresh]
    · rw [offAllPairs_covered_nil]
      · simp
      · intro q hq
        obtain ⟨p, hp, hqe⟩ := List.mem_map.mp hq
        exact ⟨listenerOf p, List.mem_map.mpr ⟨p, hp, rfl⟩,
          by rw [← hqe]; exact ⟨rfl, rfl⟩⟩
    · intro l hl q hq
      obtain ⟨p, hp, hle⟩ := List.mem_map.mp hl
      rw [← hle]
      exact hfresh p hp q hq
  refine ⟨by simp, ?_, by simp, ?_, ?_⟩
  · intro p hp
    simp only [List.nil_append]
    exact List.mem_map.mpr ⟨p, hp, rfl⟩
  · rw [removeInstanceEvent_spec]
  · rw [removeInstanceEvent_spec]
    simpa using hlisteners

/-- Claim C2, witness: binding onClick and onDblClick on an instance with a
pre-existing listener registers click and dblclick, and removing the recorded
list restores exactly the pre-existing listeners. -/
theorem bind_remove_round_trip_witness :
    ((bindInstanceEvent ⟨[("load", 9)], []⟩ [("onClick", 1), ("onDblClick", 2)] []).2).length
      = 2 ∧
    (⟨"click", 1⟩ : Listener)
      ∈ (bindInstanceEvent ⟨[("load", 9)], []⟩ [("onClick", 1), ("onDblClick", 2)] []).2 ∧
    (⟨"dblclick", 2⟩ : Listener)
      ∈ (bindInstanceEvent ⟨[("load", 9)], []⟩ [("onClick", 1), ("onDblClick", 2)] []).2 ∧
    (removeInstanceEvent (bindInstanceEvent ⟨[("load", 9)], []⟩
        [("onClick", 1), ("onDblClick", 2)] []).1
      (bindInstanceEvent ⟨[("load", 9)], []⟩ [("onClick", 1), ("onDblClick", 2)] []).2).listeners
      = [("load", 9)] := by
  have h := bind_remove_round_trip [("onClick", 1), ("onDblClick", 2)] ⟨[("load", 9)], []⟩
    (by decide) (by decide)
  have hclick : toLowerAscii ("onClick".drop 2) = "click" := by decide
  have hdbl : toLowerAscii ("onDblClick".drop 2) = "dblclick" := by decide
  refine ⟨h.1, ?_, ?_, h.2.2.2.2⟩
  · have hm := h.2.1 ("onClick", 1) (by simp)
    rw [hclick] at hm
    exact hm
  · have hm := h.2.1 ("onDblClick", 2) (by simp)
    rw [hdbl] at hm
    exact hm

/-!
Claim C7.
-/

/-- Claim C7: teardown on unmount is complete and guarded.  When the map never
loaded (state.map undefined) AMap.componentWillUnmount performs no foreign
call; when the map exists, every listener recorded at bind time is removed and
destroy is called.  Marker.componentWillUnmount removes all recorded listeners
and detaches the marker via setMap(null). -/
theorem unmount_teardown_guarded (inst minst : Instance)
    (callbacks mcallbacks : List (String × Nat)) (ls : List Listener)
    (hfresh : ∀ p ∈ callbacks, ∀ q ∈ inst.listeners, q.2 ≠ p.2)
    (hmfresh : ∀ p ∈ mcallbacks, ∀ q ∈ minst.listeners, q.2 ≠ p.2) :
    (AMap.componentWillUnmount none ls = none) ∧
    (AMap.componentWillUnmount (some (bindInstanceEvent inst callbacks []).1)
        (bindInstanceEvent inst callbacks []).2
      = some ⟨inst.listeners,
          ((bindInstanceEvent inst callbacks []).1).callLog
            ++ ((bindInstanceEvent inst callbacks []).2).map offCallOf
            ++ [⟨"destroy", []⟩]⟩) ∧
    (Marker.componentWillUnmount (bindInstanceEvent minst mcallbacks []).1
        (bindInstanceEvent minst mcallbacks []).2
      = ⟨minst.listeners,
          ((bindInstanceEvent minst mcallbacks []).1).callLog
            ++ ((bindInstanceEvent minst mcallbacks []).2).map offCallOf
            ++ [⟨"setMap", [JSValue.jsnull]⟩]⟩) := by
  have key : ∀ (i : Instance) (cbs : List (String × Nat)),
      (∀ p ∈ cbs, ∀ q ∈ i.listeners, q.2 ≠ p.2) →
      removeInstanceEvent (bindInstanceEvent i cbs []).1 (bindInstanceEvent i cbs []).2
        = ⟨i.listeners,
            ((bindInstanceEvent i cbs []).1).callLog
              ++ ((bindInstanceEvent i cbs []).2).map offCallOf⟩ := by
    intro i cbs hf
    rw [bindInstanceEvent_spec, removeInstanceEvent_spec]
    simp only [List.nil_append]
    congr 1
    rw [offAllPairs_append_fresh]
    · rw [offAllPairs_covered_nil]
      · simp
      · intro q hq
        obtain ⟨p, hp, hqe⟩ := List.mem_map.mp hq
        exact ⟨listenerOf p, List.mem_map.mpr ⟨p, hp, rfl⟩,
          by rw [← hqe]; exact ⟨rfl, rfl⟩⟩
    · intro l hl q hq
      obtain ⟨p, hp, hle⟩ := List.mem_map.mp hl
      rw [← hle]
      exact hf p hp q hq
  refine ⟨rfl, ?_, ?_⟩
  · rw [AMap.componentWillUnmount, key inst callbacks hfresh]
    simp [Instance.invoke]
  · rw [Marker.componentWillUnmount, key minst mcallbacks hmfresh]
    simp [Instance.invoke]

/-- Claim C7, witness: unmounting before the library loaded performs no call,
and unmounting a bound instance removes the bound listener and destroys resp.
detaches. -/
theorem unmount_teardown_witness :
    AMap.componentWillUnmount none [⟨"click", 1⟩] = none ∧
    AMap.componentWillUnmount (some (bindInstanceEvent ⟨[], []⟩ [("onClick", 1)] []).1)
        (bindInstanceEvent ⟨[], []⟩ [("onClick", 1)] []).2
      = some ⟨[],
          ((bindInstanceEvent ⟨[], []⟩ [("onClick", 1)] []).1).callLog
            ++ ((bindInstanceEvent ⟨[], []⟩ [("onClick", 1)] []).2).map offCallOf
            ++ [⟨"destroy", []⟩]⟩ ∧
    Marker.componentWillUnmount (bindInstanceEvent ⟨[], []⟩ [("onDragEnd", 3)] []).1
        (bindInstanceEvent ⟨[], []⟩ [("onDragEnd", 3)] []).2
      = ⟨[],
          ((bindInstanceEvent ⟨[], []⟩ [("onDragEnd", 3)] []).1).callLog
            ++ ((bindInstanceEvent ⟨[], []⟩ [("onDragEnd", 3)] []).2).map offCallOf
            ++ [⟨"setMap", [JSValue.jsnull]⟩]⟩ := by
  have h := unmount_teardown_guarded ⟨[], []⟩ ⟨[], []⟩ [("onClick", 1)] [("onDragEnd", 3)]
    [⟨"click", 1⟩] (by simp) (by simp)
  exact ⟨h.1, h.2.1, h.2.2⟩

/-!
Helper lemmas about deep copies and reference ids.
-/

mutual

theorem freshenIds_ctr_le (v : JSValue) (c : Nat) : c ≤ (freshenIds v c).2 := by
  cases v with
  | arr i elems =>
    have h := freshenList_ctr_le elems (c + 1)
    simp only [freshenIds]
    omega
  | obj i fields =>
    have h := freshenFields_ctr_le fields (c + 1)
    simp only [freshenIds]
    omega
  | foreign i cls fargs =>
    have h := freshenList_ctr_le fargs (c + 1)
    simp only [freshenIds]
    omega
  | undefined => simp [freshenIds]
  | jsnull => simp [freshenIds]
  | bool b => simp [freshenIds]
  | num n => simp [freshenIds]
  | str s => simp [freshenIds]
  | func i => simp [freshenIds]

theorem freshenList_ctr_le (vs : List JSValue) (c : Nat) : c ≤ (freshenList vs c).2 := by
  cases vs with
  | nil => simp [freshenList]
  | cons v rest =>
    have h1 := freshenIds_ctr_le v c
    have h2 := freshenList_ctr_le rest (freshenIds v c).2
    simp only [freshenList]
    omega

theorem freshenFields_ctr_le (fs : List (String × JSValue)) (c : Nat) :
    c ≤ (freshenFields fs c).2 := by
  cases fs with
  | nil => simp [freshenFields]
  | cons f rest =>
    have h1 := freshenIds_ctr_le f.2 c
    have h2 := freshenFields_ctr_le rest (freshenIds f.2 c).2
    simp only [freshenFields]
    omega

end

mutual

theorem freshenIds_ids_ge (v : JSValue) (c : Nat) :
    ∀ i ∈ idsOf (freshenIds v c).1, c ≤ i := by
  cases v with
  | arr j elems =>
    intro i hi
    simp only [freshenIds, idsOf] at hi
    rcases List.mem_cons.mp hi with h | h
    · omega
    · have := freshenList_ids_ge elems (c + 1) i h
      omega
  | obj j fields =>
    intro i hi
    simp only [freshenIds, idsOf] at hi
    rcases List.mem_cons.mp hi with h | h
    · omega
    · have := freshenFields_ids_ge fields (c + 1) i h
      omega
  | foreign j cls fargs =>
    intro i hi
    simp only [freshenIds, idsOf] at hi
    rcases List.mem_cons.mp hi with h | h
    · omega
    · have := freshenList_ids_ge fargs (c + 1) i h
      omega
  | undefined => intro i hi; simp [freshenIds, idsOf] at hi
  | jsnull => intro i hi; simp [freshenIds, idsOf] at hi
  | bool b => intro i hi; simp [freshenIds, idsOf] at hi
  | num n => intro i hi; simp [freshenIds, idsOf] at hi
  | str s => intro i hi; simp [freshenIds, idsOf] at hi
  | func j => intro i hi; simp [freshenIds, idsOf] at hi

theorem freshenList_ids_ge (vs : List JSValue) (c : Nat) :
    ∀ i ∈ idsOfList (freshenList vs c).1, c ≤ i := by
  cases vs with
  | nil => intro i hi; simp [freshenList, idsOfList] at hi
  | cons v rest =>
    intro i hi
    simp only [freshenList, idsOfList] at hi
    rcases List.mem_append.mp hi with h | h
    · exact freshenIds_ids_ge v c i h
    · have h1 := freshenList_ids_ge rest (freshenIds v c).2 i h
      have h2 := freshenIds_ctr_le v c
      omega

theorem freshenFields_ids_ge (fs : List (String × JSValue)) (c : Nat) :
    ∀ i ∈ idsOfFields (freshenFields fs c).1, c ≤ i := by
  cases fs with
  | nil => intro i hi; simp [freshenFields, idsOfFields] at hi
  | cons f rest =>
    intro i hi
    simp only [freshenFields, idsOfFields] at hi
    rcases List.mem_append.mp hi with h | h
    · exact freshenIds_ids_ge f.2 c i h
    · have h1 := freshenFields_ids_ge rest (freshenIds f.2 c).2 i h
      have h2 := freshenIds_ctr_le f.2 c
      omega

end

theorem cloneDeep_ids_ge (opts : Props) (fields : List String) (c : Nat) (k : String)
    (hk : fields.contains k = true) :
    ∀ i ∈ idsOf (getProp (cloneDeep opts fields c).1 k), c ≤ i := by
  induction opts generalizing c with
  | nil => intro i hi; simp [cloneDeep, getProp, idsOf] at hi
  | cons p rest ih =>
    intro i hi
    cases hf : (fields.contains p.1) with
    | true =>
      simp only [cloneDeep, hf, if_true] at hi
      cases hq : (p.1 == k) with
      | true =>
        simp only [getProp, hq, if_true] at hi
        exact freshenIds_ids_ge p.2 c i hi
      | false =>
        simp only [getProp, hq] at hi
        simp only [Bool.false_eq_true, if_false] at hi
        have h1 := ih (freshenIds p.2 c).2 i hi
        have h2 := freshenIds_ctr_le p.2 c
        omega
    | false =>
      simp only [cloneDeep, hf] at hi
      simp only [Bool.false_eq_true, if_false] at hi
      cases hq : (p.1 == k) with
      | true =>
        have hpk : p.1 = k := by simpa using hq
        rw [hpk, hk] at hf
        exact absurd hf (by simp)
      | false =>
        simp only [getProp, hq, Bool.false_eq_true, if_false] at hi
        exact ih c i hi

theorem parseIcon_ctr_le (icon : JSValue) (c : Nat) : c ≤ (Marker.parseIcon icon c).2 := by
  unfold Marker.parseIcon
  split
  · omega
  · split
    · omega
    · split <;> (simp only []; omega)

theorem parseLabel_ctr_le (label : JSValue) (c : Nat) : c ≤ (Marker.parseLabel label c).2 := by
  unfold Marker.parseLabel
  split
  · omega
  · split <;> (simp only []; omega)

theorem parseOffset_ctr_le (offset : JSValue) (c : Nat) : c ≤ (Marker.parseOffset offset c).2 := by
  unfold Marker.parseOffset
  split <;> (simp only []; omega)

theorem parseMarkerOptions_ctr_le (props : Props) (c : Nat) :
    c ≤ (Marker.parseMarkerOptions props c).2 := by
  unfold Marker.parseMarkerOptions
  simp only []
  refine le_trans ?_ (parseOffset_ctr_le _ _)
  refine le_trans ?_ (parseLabel_ctr_le _ _)
  refine le_trans ?_ (parseIcon_ctr_le _ _)
  split <;> simp

theorem eq_of_mem_updateMarkerWithAPI {a : String} {p n w : JSValue} {cl : Call}
    (h : cl ∈ Marker.updateMarkerWithAPI a p n w) : cl = ⟨a, [w]⟩ := by
  unfold Marker.updateMarkerWithAPI at h
  cases hs : isShallowEqual p n with
  | true => rw [hs] at h; simp at h
  | false => rw [hs] at h; simpa using h

theorem mem_toggleVisible_sub {p n : JSValue} {cl : Call}
    (h : cl ∈ Marker.toggleVisible p n) : cl = ⟨"show", []⟩ ∨ cl = ⟨"hide", []⟩ := by
  unfold Marker.toggleVisible at h
  split at h
  · rcases List.mem_append.mp h with h | h
    · split at h
      · simp at h
        exact Or.inl h
      · simp at h
    · split at h
      · simp at h
        exact Or.inr h
      · simp at h
  · simp at h

/-!
Claim C9.
-/

/-- Claim C9: the position prop is deep-copied before it reaches the SDK.
parseMarkerOptions passes position through unchanged; the options handed to
the AMap.Marker constructor are the cloneDeep copy; the position value inside
that copy shares no mutable reference with any prop value; every setPosition
call during an update carries the deep-copied position; and the markerOptions
retained for future diffing are the original parsed options, not the copy. -/
theorem position_deep_copied_before_sdk (props mo : Props) (ctr : Nat) (visible map : JSValue)
    (hlow : ∀ p ∈ props, ∀ i ∈ idsOf p.2, i < ctr) :
    (getProp (Marker.parseMarkerOptions props ctr).1 "position" = getProp props "position") ∧
    ((Marker.initMarker (Marker.parseMarkerOptions props ctr).1 visible map
        (Marker.parseMarkerOptions props ctr).2).1
      = (cloneDeep (Marker.parseMarkerOptions props ctr).1 Marker.NEED_DEEP_COPY_FIELDS
          (Marker.parseMarkerOptions props ctr).2).1) ∧
    (∀ i ∈ idsOf (getProp (cloneDeep (Marker.parseMarkerOptions props ctr).1
        Marker.NEED_DEEP_COPY_FIELDS (Marker.parseMarkerOptions props ctr).2).1 "position"),
      ∀ p ∈ props, i ∉ idsOf p.2) ∧
    (∀ cl ∈ (Marker.shouldComponentUpdate mo props ctr).2.1, cl.method = "setPosition" →
      cl.args = [getProp (cloneDeep (Marker.parseMarkerOptions props ctr).1
        Marker.NEED_DEEP_COPY_FIELDS (Marker.parseMarkerOptions props ctr).2).1 "position"]) ∧
    ((Marker.shouldComponentUpdate mo props ctr).2.2.1
      = (Marker.parseMarkerOptions props ctr).1) := by
  refine ⟨?_, rfl, ?_, ?_, rfl⟩
  · simp only [Marker.parseMarkerOptions]
    rw [getProp_setField_other _ _ _ _ (by simp), getProp_setField_other _ _ _ _ (by simp),
      getProp_setField_other _ _ _ _ (by simp), getProp_removeKeys _ _ _ (by rfl)]
  · intro i hi p hp hmem
    have h1 : (Marker.parseMarkerOptions props ctr).2 ≤ i :=
      cloneDeep_ids_ge _ _ _ "position" (by rfl) i hi
    have h2 : ctr ≤ (Marker.parseMarkerOptions props ctr).2 := parseMarkerOptions_ctr_le props ctr
    have h3 : i < ctr := hlow p hp i hmem
    omega
  · intro cl hcl hm
    have wrong : ∀ (a : String) (p n w : JSValue), cl ∈ Marker.updateMarkerWithAPI a p n w →
        (a = "setPosition" → False) → False := by
      intro a p n w hmem hne
      have he := eq_of_mem_updateMarkerWithAPI hmem
      rw [he] at hm
      exact hne hm
    simp only [Marker.shouldComponentUpdate, List.mem_append, or_assoc] at hcl
    rcases hcl with h | h | h | h | h | h | h | h | h | h | h | h | h | h | h | h | h
    · rcases mem_toggleVisible_sub h with rfl | rfl <;> simp at hm
    · exact ((wrong _ _ _ _ h (by simp)).elim)
    · exact ((wrong _ _ _ _ h (by simp)).elim)
    · exact ((wrong _ _ _ _ h (by simp)).elim)
    · exact ((wrong _ _ _ _ h (by simp)).elim)
    · obtain rfl := eq_of_mem_updateMarkerWithAPI h
      rfl
    · exact ((wrong _ _ _ _ h (by simp)).elim)
    · exact ((wrong _ _ _ _ h (by simp)).elim)
    · exact ((wrong _ _ _ _ h (by simp)).elim)
    · exact ((wrong _ _ _ _ h (by simp)).elim)
    · exact ((wrong _ _ _ _ h (by simp)).elim)
    · exact ((wrong _ _ _ _ h (by simp)).elim)
    · exact ((wrong _ _ _ _ h (by simp)).elim)
    · exact ((wrong _ _ _ _ h (by simp)).elim)
    · exact ((wrong _ _ _ _ h (by simp)).elim)
    · exact ((wrong _ _ _ _ h (by simp)).elim)
    · exact ((wrong _ _ _ _ h (by simp)).elim)

/-- Claim C9, witness: for a concrete position array prop, the parsed options
keep the original array, and the deep-copied position handed to the SDK does
not alias it. -/
theorem position_deep_copied_witness :
    getProp (Marker.parseMarkerOptions
        [("position", JSValue.arr 0 [JSValue.num 120, JSValue.num 30])] 1).1 "position"
      = JSValue.arr 0 [JSValue.num 120, JSValue.num 30] ∧
    (5 : Nat) ∉ idsOf (JSValue.arr 0 [JSValue.num 120, JSValue.num 30]) := by
  have h := position_deep_copied_before_sdk
    [("position", JSValue.arr 0 [JSValue.num 120, JSValue.num 30])] [] 1 JSValue.undefined
    JSValue.undefined (by decide)
  constructor
  · rw [h.1]
    rfl
  · exact h.2.2.1 5 (by decide) ("position", JSValue.arr 0 [JSValue.num 120, JSValue.num 30])
      (by simp)

/-!
Helper lemmas for the lifecycle machine.
-/

/-- History invariant of the machine: the script-load events that justify the
current phase have occurred. -/
def AMap.phaseSupported (pre : Bool) (ph : Phase) (h : List LifeEvent) : Prop :=
  match ph with
  | .waitingUILoca uiDone locaDone =>
      LifeEvent.amapScriptLoaded ∈ h ∧ (uiDone = true → LifeEvent.uiScriptLoaded ∈ h) ∧
        (locaDone = true → LifeEvent.locaScriptLoaded ∈ h)
  | .ready => pre = true ∨ (LifeEvent.amapScriptLoaded ∈ h ∧ LifeEvent.uiScriptLoaded ∈ h ∧
      LifeEvent.locaScriptLoaded ∈ h)
  | _ => True

theorem AMap.step_supported (pre : Bool) (st : MachineState) (ev : LifeEvent)
    (h : List LifeEvent) (hs : AMap.phaseSupported pre st.phase h) :
    AMap.phaseSupported pre (AMap.step pre st ev).1.phase (h ++ [ev]) := by
  obtain ⟨ph, mo, c⟩ := st
  cases ph <;> cases ev <;>
    simp only [AMap.step] <;>
    (try split) <;>
    simp_all [AMap.phaseSupported] <;>
    tauto

theorem AMap.step_construct_hist (pre : Bool) (st : MachineState) (ev : LifeEvent)
    (h : List LifeEvent) (hs : AMap.phaseSupported pre st.phase h)
    (hc : Effect.constructMap ∈ (AMap.step pre st ev).2) :
    pre = true ∨ (LifeEvent.amapScriptLoaded ∈ h ++ [ev] ∧ LifeEvent.uiScriptLoaded ∈ h ++ [ev] ∧
      LifeEvent.locaScriptLoaded ∈ h ++ [ev]) := by
  obtain ⟨ph, mo, c⟩ := st
  cases ph <;> cases ev <;>
    simp only [AMap.step] at hc <;>
    (try split at hc) <;>
    simp_all [AMap.phaseSupported, AMap.constructSeq]

theorem AMap.run_construct_hist (pre : Bool) (trace : List LifeEvent) (st : MachineState)
    (h : List LifeEvent) (hs : AMap.phaseSupported pre st.phase h)
    (hc : Effect.constructMap ∈ (AMap.run pre st trace).2) :
    pre = true ∨ (LifeEvent.amapScriptLoaded ∈ h ++ trace ∧
      LifeEvent.uiScriptLoaded ∈ h ++ trace ∧ LifeEvent.locaScriptLoaded ∈ h ++ trace) := by
  induction trace generalizing st h with
  | nil => simp [AMap.run] at hc
  | cons ev rest ih =>
    rw [AMap.run] at hc
    rcases List.mem_append.mp hc with hc | hc
    · rcases AMap.step_construct_hist pre st ev h hs hc with hp | ⟨h1, h2, h3⟩
      · exact Or.inl hp
      · refine Or.inr ⟨?_, ?_, ?_⟩ <;>
          simp_all [List.mem_append] <;> tauto
    · have ih2 := ih (AMap.step pre st ev).1 (h ++ [ev])
        (AMap.step_supported pre st ev h hs) hc
      rcases ih2 with hp | ⟨h1, h2, h3⟩
      · exact Or.inl hp
      · refine Or.inr ⟨?_, ?_, ?_⟩ <;>
          simp_all [List.mem_append]

/-- Phases reachable without the maps script having loaded. -/
def AMap.dormant (ph : Phase) : Prop :=
  ph = .created ∨ ph = .waitingAMap ∨ ph = .unmounted

theorem AMap.step_dormant (st : MachineState) (ev : LifeEvent)
    (hd : AMap.dormant st.phase) (hev : ev ≠ LifeEvent.amapScriptLoaded) :
    AMap.dormant (AMap.step false st ev).1.phase ∧
      ∀ a ∈ (AMap.step false st ev).2, a = Effect.loadScriptAction "maps" := by
  obtain ⟨ph, mo, c⟩ := st
  cases ph <;> cases ev <;>
    simp_all [AMap.step, AMap.dormant]

theorem AMap.run_dormant (trace : List LifeEvent) (st : MachineState)
    (hd : AMap.dormant st.phase) (hev : LifeEvent.amapScriptLoaded ∉ trace) :
    ∀ a ∈ (AMap.run false st trace).2, a = Effect.loadScriptAction "maps" := by
  induction trace generalizing st with
  | nil => simp [AMap.run]
  | cons ev rest ih =>
    have hne : ev ≠ LifeEvent.amapScriptLoaded := by
      intro hcontra
      exact hev (by rw [hcontra]; simp)
    have hstep := AMap.step_dormant st ev hd hne
    intro a ha
    rw [AMap.run] at ha
    rcases List.mem_append.mp ha with ha | ha
    · exact hstep.2 a ha
    · exact ih (AMap.step false st ev).1 hstep.1 (fun hmem => hev (by simp [hmem])) a ha

/-!
Claim C3.
-/

/-- Claim C3: the AMap component follows the fixed lifecycle order.  Mounting
either requests the maps script or, when window.AMap is already defined,
constructs the map immediately; without preloading, a constructMap effect can
only occur after all three script-load events; whenever the map is
constructed, event binding follows immediately and children render after it;
componentDidUpdate is skipped entirely while the map is undefined; and destroy
is emitted only while processing unmount. -/
theorem lifecycle_fixed_order (pre : Bool) (o props : Props) (c : Nat) (st : MachineState)
    (ev : LifeEvent) (trace : List LifeEvent) :
    (AMap.step false (AMap.initialState o c) LifeEvent.mount
      = (⟨Phase.waitingAMap, o, c⟩, [Effect.loadScriptAction "maps"])) ∧
    (AMap.step true (AMap.initialState o c) LifeEvent.mount
      = (⟨Phase.ready, o, c⟩, AMap.constructSeq)) ∧
    (Effect.constructMap ∈ (AMap.run pre (AMap.initialState o c) trace).2 →
      pre = true ∨ (LifeEvent.amapScriptLoaded ∈ trace ∧ LifeEvent.uiScriptLoaded ∈ trace ∧
        LifeEvent.locaScriptLoaded ∈ trace)) ∧
    (Effect.constructMap ∈ (AMap.step pre st ev).2 →
      (AMap.step pre st ev).2 = AMap.constructSeq ∨
      (AMap.step pre st ev).2 = Effect.initAMapUIAction :: AMap.constructSeq) ∧
    (st.phase ≠ Phase.ready → AMap.step pre st (LifeEvent.propsUpdate props) = (st, [])) ∧
    (AMap.componentDidUpdate false o props pre c = ([], o, c)) ∧
    (Effect.destroyAction ∈ (AMap.step pre st ev).2 → ev = LifeEvent.unmount) := by
  refine ⟨rfl, rfl, ?_, ?_, ?_, rfl, ?_⟩
  · intro hc
    have h := AMap.run_construct_hist pre trace (AMap.initialState o c) [] (by trivial) hc
    simpa using h
  · intro hc
    obtain ⟨ph, mo, c2⟩ := st
    cases ph <;> cases ev <;>
      simp only [AMap.step] at hc ⊢ <;>
      (try split at hc) <;>
      simp_all [AMap.constructSeq]
  · intro hne
    obtain ⟨ph, mo, c2⟩ := st
    cases ph <;> simp_all [AMap.step]
  · intro hd
    obtain ⟨ph, mo, c2⟩ := st
    cases ph <;> cases ev <;>
      simp only [AMap.step] at hd <;>
      (try split at hd) <;>
      simp_all [AMap.constructSeq]

/-- Claim C3, witness: a full successful load trace constructs the map and all
three script loads are in the trace; an update delivered before the map
exists does nothing. -/
theorem lifecycle_fixed_order_witness :
    (false = true ∨ (LifeEvent.amapScriptLoaded ∈ [LifeEvent.mount, LifeEvent.amapScriptLoaded,
        LifeEvent.uiScriptLoaded, LifeEvent.locaScriptLoaded] ∧
      LifeEvent.uiScriptLoaded ∈ [LifeEvent.mount, LifeEvent.amapScriptLoaded,
        LifeEvent.uiScriptLoaded, LifeEvent.locaScriptLoaded] ∧
      LifeEvent.locaScriptLoaded ∈ [LifeEvent.mount, LifeEvent.amapScriptLoaded,
        LifeEvent.uiScriptLoaded, LifeEvent.locaScriptLoaded])) ∧
    AMap.step false (AMap.initialState [] 0) (LifeEvent.propsUpdate [("zoom", JSValue.num 1)])
      = (AMap.initialState [] 0, []) := by
  have h := lifecycle_fixed_order false [] [("zoom", JSValue.num 1)] 0 (AMap.initialState [] 0)
    LifeEvent.mount
    [LifeEvent.mount, LifeEvent.amapScriptLoaded, LifeEvent.uiScriptLoaded,
      LifeEvent.locaScriptLoaded]
  constructor
  · apply h.2.2.1
    have hrun : (AMap.run false (AMap.initialState [] 0)
        [LifeEvent.mount, LifeEvent.amapScriptLoaded, LifeEvent.uiScriptLoaded,
          LifeEvent.locaScriptLoaded]).2
      = [Effect.loadScriptAction "maps", Effect.loadScriptAction "ui",
         Effect.loadScriptAction "loca", Effect.initAMapUIAction, Effect.constructMap,
         Effect.bindEventsAction, Effect.renderChildren] := rfl
    rw [hrun]
    simp
  · exact h.2.2.2.2.1 (by simp [AMap.initialState])

/-!
Claim C4.
-/

/-- Claim C4: a failed external script load is unhandled.  The loadScript
promise settles (resolves) exactly when onload fires and has no rejection
path, so a failed script leaves it pending forever; a script error event has
no handler at all; and in any trace in which the maps script never loads, the
map is never constructed, children never render, and no error is reported. -/
theorem failed_script_load_unhandled (o : Props) (c : Nat) (pre : Bool)
    (st : MachineState) (f : ScriptFate) (trace : List LifeEvent) :
    ((AMap.loadScript f).isSome = true ↔ f = ScriptFate.loaded) ∧
    (AMap.loadScript ScriptFate.failed = none) ∧
    (AMap.step pre st LifeEvent.scriptError = (st, [])) ∧
    (LifeEvent.amapScriptLoaded ∉ trace →
      Effect.constructMap ∉ (AMap.run false (AMap.initialState o c) trace).2 ∧
      Effect.renderChildren ∉ (AMap.run false (AMap.initialState o c) trace).2 ∧
      Effect.reportError ∉ (AMap.run false (AMap.initialState o c) trace).2) := by
  refine ⟨?_, rfl, ?_, ?_⟩
  · cases f <;> simp [AMap.loadScript]
  · obtain ⟨ph, mo, c2⟩ := st
    cases ph <;> rfl
  · intro hno
    have hall := AMap.run_dormant trace (AMap.initialState o c) (Or.inl rfl) hno
    refine ⟨?_, ?_, ?_⟩ <;>
      (intro hmem; have hcontra := hall _ hmem; simp at hcontra)

/-- Claim C4, witness: in a trace where the maps script never loads (only an
error event arrives), the map is never constructed and children never
render. -/
theorem failed_script_load_witness :
    Effect.constructMap ∉ (AMap.run false (AMap.initialState [] 0)
      [LifeEvent.mount, LifeEvent.scriptError, LifeEvent.unmount]).2 ∧
    Effect.renderChildren ∉ (AMap.run false (AMap.initialState [] 0)
      [LifeEvent.mount, LifeEvent.scriptError, LifeEvent.unmount]).2 := by
  have h := failed_script_load_unhandled [] 0 false (AMap.initialState [] 0) ScriptFate.failed
    [LifeEvent.mount, LifeEvent.scriptError, LifeEvent.unmount]
  exact ⟨(h.2.2.2 (by simp)).1, (h.2.2.2 (by simp)).2.1⟩
